import Mathlib

/-!
Verification development for the Moji language pipeline (lexer, parser,
tree-walking interpreter).  The definitions below are a shallow embedding of
the Python sources `Moji/token.py`, `Moji/lexer.py`, `Moji/parser.py` and
`Moji/interpreter.py`:

* Python machine integers / bignums are modelled by `Int`, Python floats by
  `ℚ` (exact rationals; the float results appearing in the theorems below,
  such as `2.5`, are exactly representable, and the host float formatting is
  only approximated by `pyStrReal`).
* Python's insertion-ordered `dict` (the interpreter's symbol table, and the
  modelled file system) is an association list with in-place update
  (`envSet`) and deletion (`envErase`).
* Python exceptions are explicit result values: `Except` for the lexer and
  parser, and `Res` (which carries the state at raise time) for the
  interpreter.  Unbounded loops and recursion take a fuel parameter; running
  out of fuel is a distinguished outcome (`.fuel`), never confused with a
  real error of the program.
* Python lists are mutable reference cells; the language as specified never
  exposes aliasing, and they are modelled here as immutable `List` values
  (in-place `append`/`pop` become functional updates of the binding).
-/

namespace Moji

/-! ## Token model (`Moji/token.py`) -/

inductive TokType
  | IDENTIFIER
  | LIT_INT
  | LIT_REAL
  | LIT_STRING
  | EOF
  | PROGRAM_START
  | PROGRAM_END
  | BLOCK_START
  | BLOCK_END
  | KEYWORD_INT
  | KEYWORD_REAL
  | KEYWORD_STRING
  | KEYWORD_READ
  | KEYWORD_PRINT
  | OP_PLUS
  | OP_MINUS
  | OP_MUL
  | OP_DIV
  | ASSIGN
  | COMMENT
  | END_STATEMENT
  | KEYWORD_IF
  | KEYWORD_ELIF
  | KEYWORD_ELSE
  | KEYWORD_FUN
  | KEYWORD_RETURN
  | KEYWORD_CALL
  | KEYWORD_WHILE
  | KEYWORD_FOR
  | COMP_EQ
  | COMP_GT
  | COMP_LT
  | LOGIC_NOT
  | LOGIC_AND
  | LOGIC_OR
  | KEYWORD_LIST
  | KEYWORD_APPEND
  | KEYWORD_REMOVE
  | KEYWORD_GET_AT
  | KEYWORD_IMPORT
  | KEYWORD_SAVE
  | KEYWORD_SLEEP
  | KEYWORD_READ_FILE
  | KEYWORD_APPEND_FILE
deriving DecidableEq, Repr

/-- The Python token-type constants are strings; this is the string each
`TokType` stands for (used in error messages). -/
def ttStr : TokType → String
  | .IDENTIFIER => "IDENTIFIER"
  | .LIT_INT => "LIT_INT"
  | .LIT_REAL => "LIT_REAL"
  | .LIT_STRING => "LIT_STRING"
  | .EOF => "EOF"
  | .PROGRAM_START => "PROGRAM_START"
  | .PROGRAM_END => "PROGRAM_END"
  | .BLOCK_START => "BLOCK_START"
  | .BLOCK_END => "BLOCK_END"
  | .KEYWORD_INT => "KEYWORD_INT"
  | .KEYWORD_REAL => "KEYWORD_REAL"
  | .KEYWORD_STRING => "KEYWORD_STRING"
  | .KEYWORD_READ => "KEYWORD_READ"
  | .KEYWORD_PRINT => "KEYWORD_PRINT"
  | .OP_PLUS => "OP_PLUS"
  | .OP_MINUS => "OP_MINUS"
  | .OP_MUL => "OP_MUL"
  | .OP_DIV => "OP_DIV"
  | .ASSIGN => "ASSIGN"
  | .COMMENT => "COMMENT"
  | .END_STATEMENT => "END_STATEMENT"
  | .KEYWORD_IF => "KEYWORD_IF"
  | .KEYWORD_ELIF => "KEYWORD_ELIF"
  | .KEYWORD_ELSE => "KEYWORD_ELSE"
  | .KEYWORD_FUN => "KEYWORD_FUN"
  | .KEYWORD_RETURN => "KEYWORD_RETURN"
  | .KEYWORD_CALL => "KEYWORD_CALL"
  | .KEYWORD_WHILE => "KEYWORD_WHILE"
  | .KEYWORD_FOR => "KEYWORD_FOR"
  | .COMP_EQ => "COMP_EQ"
  | .COMP_GT => "COMP_GT"
  | .COMP_LT => "COMP_LT"
  | .LOGIC_NOT => "LOGIC_NOT"
  | .LOGIC_AND => "LOGIC_AND"
  | .LOGIC_OR => "LOGIC_OR"
  | .KEYWORD_LIST => "KEYWORD_LIST"
  | .KEYWORD_APPEND => "KEYWORD_APPEND"
  | .KEYWORD_REMOVE => "KEYWORD_REMOVE"
  | .KEYWORD_GET_AT => "KEYWORD_GET_AT"
  | .KEYWORD_IMPORT => "KEYWORD_IMPORT"
  | .KEYWORD_SAVE => "KEYWORD_SAVE"
  | .KEYWORD_SLEEP => "KEYWORD_SLEEP"
  | .KEYWORD_READ_FILE => "KEYWORD_READ_FILE"
  | .KEYWORD_APPEND_FILE => "KEYWORD_APPEND_FILE"

/-- A token's optional `value` attribute: `None`, an `int`, a `float`
(modelled by `ℚ`) or a `str`. -/
inductive TokVal
  | vnone
  | vint (n : Int)
  | vreal (q : ℚ)
  | vstr (s : String)
deriving DecidableEq, Repr

structure Token where
  ttype : TokType
  tval : TokVal
deriving DecidableEq, Repr

/-- Approximation of the host's float formatting (only ever applied to
rationals arising from the modelled programs; no claim depends on the exact
rendering of a non-integral float). -/
def pyStrReal (q : ℚ) : String :=
  if q.den = 1 then toString q.num ++ ".0" else toString q.num ++ "/" ++ toString q.den

/-- `Token.__repr__`: `Token(TYPE:value)` when a value is present,
`Token(TYPE)` otherwise. -/
def tokStr (t : Token) : String :=
  match t.tval with
  | .vnone => "Token(" ++ ttStr t.ttype ++ ")"
  | .vint n => "Token(" ++ ttStr t.ttype ++ ":" ++ toString n ++ ")"
  | .vreal q => "Token(" ++ ttStr t.ttype ++ ":" ++ pyStrReal q ++ ")"
  | .vstr s => "Token(" ++ ttStr t.ttype ++ ":" ++ s ++ ")"

/-- The `EMOJI_KEYWORDS` map of `token.py`: emoji key (one or two
codepoints, exactly as in the source) to token type. -/
def EMOJI_KEYWORDS : List (String × TokType) :=
  [("🌱", .PROGRAM_START),
   ("🌳", .PROGRAM_END),
   ("📦", .BLOCK_START),
   ("📦⛔", .BLOCK_END),
   ("🔢", .KEYWORD_INT),
   ("👽", .KEYWORD_REAL),
   ("💬", .KEYWORD_STRING),
   ("👀", .KEYWORD_READ),
   ("🖨️", .KEYWORD_PRINT),
   ("➕", .OP_PLUS),
   ("➖", .OP_MINUS),
   ("✖️", .OP_MUL),
   ("➗", .OP_DIV),
   ("👉", .ASSIGN),
   ("💭", .COMMENT),
   ("🔚", .END_STATEMENT),
   ("🤔", .KEYWORD_IF),
   ("🔀", .KEYWORD_ELIF),
   ("🤨", .KEYWORD_ELSE),
   ("🧩", .KEYWORD_FUN),
   ("🔙", .KEYWORD_RETURN),
   ("📞", .KEYWORD_CALL),
   ("⏳", .KEYWORD_WHILE),
   ("🚶", .KEYWORD_FOR),
   ("⚖️", .COMP_EQ),
   ("⬆️", .COMP_GT),
   ("⬇️", .COMP_LT),
   ("🚫", .LOGIC_NOT),
   ("🤝", .LOGIC_AND),
   ("🌀", .LOGIC_OR),
   ("📜", .KEYWORD_LIST),
   ("➕📜", .KEYWORD_APPEND),
   ("➖📜", .KEYWORD_REMOVE),
   ("🎯", .KEYWORD_GET_AT),
   ("⚙️", .KEYWORD_IMPORT),
   ("💾", .KEYWORD_SAVE),
   ("⏱️", .KEYWORD_SLEEP),
   ("📖", .KEYWORD_READ_FILE),
   ("✍️", .KEYWORD_APPEND_FILE)]

def emojiLookup (key : String) : Option TokType :=
  (EMOJI_KEYWORDS.find? (fun p => p.1 == key)).map (fun p => p.2)

/-! ## AST model (`Moji/ast_nodes.py`)

One constructor per node class, with the same fields. -/

inductive Node
  | program (statements : List Node)
  | block (statements : List Node)
  | number (token : Token)
  | strNode (token : Token)
  | varAccess (var_name_token : Token)
  | binOp (left_node : Node) (op_token : Token) (right_node : Node)
  | unaryOp (op_token : Token) (node : Node)
  | funcCall (node_to_call : Node) (arg_nodes : List Node)
  | listAccess (list_node : Node) (index_node : Node)
  | fileRead (filename_node : Node)
  | typeCast (type_token : Token) (expression_node : Node)
  | varDeclare (var_type_token : Token) (var_name_token : Token) (value_node : Option Node)
  | varAssign (var_name_token : Token) (value_node : Node)
  | print (node_to_print : Node)
  | readNode (var_name_token : Token)
  | ifNode (cases : List (Node × Node)) (else_case : Option Node)
  | whileNode (condition_node : Node) (body_node : Node)
  | forNode (var_name_token : Token) (list_node : Node) (body_node : Node)
  | funcDef (func_name_token : Token) (arg_name_tokens : List Token) (body_node : Node)
  | ret (node_to_return : Option Node)
  | listAppend (list_var_token : Token) (value_node : Node)
  | listRemove (list_var_token : Token) (index_node : Node)
  | importNode (module_name_token : Token)
  | save (data_node : Node) (filename_node : Node)
  | fileAppend (data_node : Node) (filename_node : Node)
  | sleep (duration_node : Node)
deriving Repr

/-! ## Lexer (`Moji/lexer.py`) -/

/-- `self.current_char`: the character at `pos`, or `None` past the end. -/
def curChar (text : List Char) (pos : Nat) : Option Char := text.get? pos

theorem lt_of_curChar_some {text : List Char} {pos : Nat} {c : Char}
    (h : curChar text pos = some c) : pos < text.length := by
  by_contra hlt
  rw [curChar, List.get?_eq_none.mpr (by omega)] at h
  exact Option.noConfusion h

/-- The scanning loop of `Lexer.make_number`: accumulate digits and dots,
breaking at a second dot. Returns the accumulated characters, the dot count
and the stop position.  (`pos < text.length` is the source's
`current_char is not None`.) -/
def numLoop (text : List Char) (pos : Nat) (numStr : List Char) (dotCount : Nat) :
    List Char × Nat × Nat :=
  if h : pos < text.length then
    let c := text.get ⟨pos, h⟩
    if c.isDigit || c = '.' then
      if c = '.' ∧ dotCount = 1 then (numStr, dotCount, pos)
      else numLoop text (pos + 1) (numStr ++ [c]) (if c = '.' then dotCount + 1 else dotCount)
    else (numStr, dotCount, pos)
  else (numStr, dotCount, pos)
termination_by text.length - pos
decreasing_by omega

/-- `int(s)` on a string of decimal digits. -/
def parseIntDigits (cs : List Char) : Nat :=
  cs.foldl (fun a c => a * 10 + (c.toNat - 48)) 0

/-- `float(s)` on a string of digits containing at most one dot. -/
def parseRealChars (cs : List Char) : ℚ :=
  let intPart := cs.takeWhile (fun c => c ≠ '.')
  let fracPart := (cs.dropWhile (fun c => c ≠ '.')).drop 1
  (parseIntDigits intPart : ℚ) + (parseIntDigits fracPart : ℚ) / ((10 : ℚ) ^ fracPart.length)

/-- `Lexer.make_number`: called with `pos` on a digit; returns the literal
token and the position of the first unconsumed character.  It cannot raise:
its only outcomes are an `int` or a `float` literal token. -/
def make_number (text : List Char) (pos : Nat) : Token × Nat :=
  let r := numLoop text pos [] 0
  if r.2.1 = 0 then (⟨.LIT_INT, .vint (parseIntDigits r.1)⟩, r.2.2)
  else (⟨.LIT_REAL, .vreal (parseRealChars r.1)⟩, r.2.2)

/-- The copy loop of `Lexer.make_string` (after the opening quote). -/
def strLoop (text : List Char) (pos : Nat) (acc : List Char) : List Char × Nat :=
  if h : pos < text.length then
    let c := text.get ⟨pos, h⟩
    if c = '"' then (acc, pos) else strLoop text (pos + 1) (acc ++ [c])
  else (acc, pos)
termination_by text.length - pos
decreasing_by omega

/-- `Lexer.make_string`: `pos` is on the opening quote; an unterminated
string is a lex error. -/
def make_string (text : List Char) (pos : Nat) : Except String (Token × Nat) :=
  let r := strLoop text (pos + 1) []
  match curChar text r.2 with
  | none => .error "Erro Léxico: String não fechada."
  | some _ => .ok (⟨.LIT_STRING, .vstr (String.mk r.1)⟩, r.2 + 1)

/-- Identifier characters (the host's `isalnum` restricted to ASCII; the
keyword alphabet of the language is emoji, which are not alphanumeric). -/
def isIdentChar (c : Char) : Bool := c.isAlphanum || c = '_'

def identLoop (text : List Char) (pos : Nat) (acc : List Char) : List Char × Nat :=
  if h : pos < text.length then
    let c := text.get ⟨pos, h⟩
    if isIdentChar c then identLoop text (pos + 1) (acc ++ [c]) else (acc, pos)
  else (acc, pos)
termination_by text.length - pos
decreasing_by omega

/-- `Lexer.make_identifier`. -/
def make_identifier (text : List Char) (pos : Nat) : Token × Nat :=
  let r := identLoop text pos []
  (⟨.IDENTIFIER, .vstr (String.mk r.1)⟩, r.2)

/-- The to-end-of-line loop of `Lexer.skip_comment`. -/
def commentLoop (text : List Char) (pos : Nat) : Nat :=
  if h : pos < text.length then
    let c := text.get ⟨pos, h⟩
    if c = '\n' then pos else commentLoop text (pos + 1)
  else pos
termination_by text.length - pos
decreasing_by omega

/-- `Lexer.skip_comment`: step past the comment marker, then to end of line. -/
def skip_comment (text : List Char) (pos : Nat) : Nat := commentLoop text (pos + 1)

/-- Lexer outcomes other than a token list: a lex error (the host exception
text) or fuel exhaustion of the model. -/
inductive LexErr
  | lex (msg : String)
  | fuel
deriving DecidableEq, Repr

def isSpaceChar (c : Char) : Bool := c = ' ' || c = '\t' || c = '\n' || c = '\r'

/-- The scanning loop of `Lexer.make_tokens`. -/
def make_tokens_loop : Nat → List Char → Nat → List Token → Except LexErr (List Token)
  | 0, _, _, _ => .error .fuel
  | fuel + 1, text, pos, acc =>
    match curChar text pos with
    | none => .ok (acc ++ [⟨.EOF, .vnone⟩])
    | some c =>
      if isSpaceChar c then
        make_tokens_loop fuel text (pos + 1) acc
      else if c = '💭' then
        make_tokens_loop fuel text (skip_comment text pos) acc
      else if c.isDigit then
        let r := make_number text pos
        make_tokens_loop fuel text r.2 (acc ++ [r.1])
      else if c = '"' then
        match make_string text pos with
        | .error e => .error (.lex e)
        | .ok r => make_tokens_loop fuel text r.2 (acc ++ [r.1])
      else if c.isAlpha || c = '_' then
        let r := make_identifier text pos
        make_tokens_loop fuel text r.2 (acc ++ [r.1])
      else
        match curChar text (pos + 1) with
        | some c2 =>
          let two := String.mk [c, c2]
          match emojiLookup two with
          | some tt => make_tokens_loop fuel text (pos + 2) (acc ++ [⟨tt, .vstr two⟩])
          | none =>
            match emojiLookup (String.mk [c]) with
            | some tt => make_tokens_loop fuel text (pos + 1) (acc ++ [⟨tt, .vstr (String.mk [c])⟩])
            | none =>
              .error (.lex ("Erro Léxico: Caractere ilegal ou emoji desconhecido: '"
                ++ String.mk [c] ++ "'"))
        | none =>
          match emojiLookup (String.mk [c]) with
          | some tt => make_tokens_loop fuel text (pos + 1) (acc ++ [⟨tt, .vstr (String.mk [c])⟩])
          | none =>
            .error (.lex ("Erro Léxico: Caractere ilegal ou emoji desconhecido: '"
              ++ String.mk [c] ++ "'"))

/-- `Lexer.make_tokens` on source text. -/
def make_tokens (fuel : Nat) (src : String) : Except LexErr (List Token) :=
  make_tokens_loop fuel src.data 0 []

/-! ## Parser (`Moji/parser.py`)

The parser's position in the token list is an index `i`; `advance` clamps
`current_token` to the final token once the index passes the end, which
`curTok` reproduces.  Parser outcomes: a result with the new index, a
`SyntaxError` (`.syn`, carrying the message), the host crash that accessing
`None.type` would produce (`.crash`: empty token list, or `peek()` returning
`None` inside the statement dispatcher), or fuel exhaustion of the model. -/

inductive PErr
  | syn (msg : String)
  | crash
  | fuel
deriving DecidableEq, Repr

abbrev PRes (α : Type) := Except PErr (α × Nat)

/-- `self.current_token`: for a nonempty token list, the token at `i`
clamped to the last token (the empty list is guarded in `parseF`). -/
def curTok (ts : List Token) (i : Nat) : Token :=
  if h : i < ts.length then ts.get ⟨i, h⟩ else ts.getLastD ⟨.EOF, .vnone⟩

/-- `Parser.peek()` (with its default `n=1`). -/
def peekTok (ts : List Token) (i : Nat) : Option Token := ts.get? (i + 1)

/-- `Parser.eat`: consume the current token if it has the expected type,
else `SyntaxError`. -/
def eat (ts : List Token) (i : Nat) (expected : TokType) : PRes Unit :=
  if (curTok ts i).ttype = expected then .ok ((), i + 1)
  else .error (.syn ("Esperava '" ++ ttStr expected ++ "', mas encontrou '"
    ++ ttStr (curTok ts i).ttype ++ "'"))

/-- The three binary-operator precedence levels of the expression grammar
(`comparison` → `term` → `factor`), all implemented by the source's generic
`binary_operation` loop. -/
inductive Lvl
  | comparison
  | term
  | factor
deriving DecidableEq, Repr

/-- The `valid_op_types` of each precedence level. -/
def lvlOps : Lvl → List TokType
  | .comparison => [.COMP_EQ, .COMP_GT, .COMP_LT]
  | .term => [.OP_PLUS, .OP_MINUS]
  | .factor => [.OP_MUL, .OP_DIV]

/-- `Parser.read_statement` (no recursion into the grammar). -/
def read_statement (ts : List Token) (i : Nat) : PRes Node :=
  match eat ts i .KEYWORD_READ with
  | .error e => .error e
  | .ok (_, i) =>
    let var_token := curTok ts i
    match eat ts i .IDENTIFIER with
    | .error e => .error e
    | .ok (_, i) =>
      match eat ts i .END_STATEMENT with
      | .error e => .error e
      | .ok (_, i) => .ok (.readNode var_token, i)

/-- `Parser.import_statement`. -/
def import_statement (ts : List Token) (i : Nat) : PRes Node :=
  match eat ts i .KEYWORD_IMPORT with
  | .error e => .error e
  | .ok (_, i) =>
    let module_name_token := curTok ts i
    match eat ts i .IDENTIFIER with
    | .error e => .error e
    | .ok (_, i) =>
      match eat ts i .END_STATEMENT with
      | .error e => .error e
      | .ok (_, i) => .ok (.importNode module_name_token, i)

mutual

/-- `Parser.statements`: accumulate statements until the end token (or EOF). -/
def statementsF : Nat → List Token → TokType → Nat → PRes (List Node)
  | 0, _, _, _ => .error .fuel
  | fuel + 1, ts, endTT, i =>
    if (curTok ts i).ttype = endTT ∨ (curTok ts i).ttype = .EOF then .ok ([], i)
    else
      match statementF fuel ts i with
      | .error e => .error e
      | .ok (st, i) =>
        match statementsF fuel ts endTT i with
        | .error e => .error e
        | .ok (rest, i) => .ok (st :: rest, i)
termination_by structural fuel _ _ _ => fuel

/-- `Parser.statement`: dispatch on the current token's type; a leading
identifier is disambiguated by the peeked second token. -/
def statementF : Nat → List Token → Nat → PRes Node
  | 0, _, _ => .error .fuel
  | fuel + 1, ts, i =>
    let tt := (curTok ts i).ttype
    if tt = .KEYWORD_PRINT then print_statementF fuel ts i
    else if tt = .KEYWORD_READ then read_statement ts i
    else if tt = .KEYWORD_INT ∨ tt = .KEYWORD_REAL ∨ tt = .KEYWORD_STRING ∨ tt = .KEYWORD_LIST then
      var_declarationF fuel ts i
    else if tt = .KEYWORD_IF then if_statementF fuel ts i
    else if tt = .BLOCK_START then blockF fuel ts i
    else if tt = .KEYWORD_FUN then func_definitionF fuel ts i
    else if tt = .KEYWORD_RETURN then return_statementF fuel ts i
    else if tt = .KEYWORD_IMPORT then import_statement ts i
    else if tt = .KEYWORD_SAVE then save_statementF fuel ts i
    else if tt = .KEYWORD_SLEEP then sleep_statementF fuel ts i
    else if tt = .IDENTIFIER then
      match peekTok ts i with
      | none => .error .crash
      | some nxt =>
        if nxt.ttype = .ASSIGN then var_assignmentF fuel ts i
        else if nxt.ttype = .KEYWORD_APPEND then list_appendF fuel ts i
        else if nxt.ttype = .KEYWORD_REMOVE then list_removeF fuel ts i
        else .error (.syn ("Comando inesperado: token '" ++ tokStr (curTok ts i) ++ "'"))
    else .error (.syn ("Comando inesperado: token '" ++ tokStr (curTok ts i) ++ "'"))
termination_by structural fuel _ _ => fuel

/-- `Parser.print_statement`. -/
def print_statementF : Nat → List Token → Nat → PRes Node
  | 0, _, _ => .error .fuel
  | fuel + 1, ts, i =>
    match eat ts i .KEYWORD_PRINT with
    | .error e => .error e
    | .ok (_, i) =>
      match expressionF fuel ts i with
      | .error e => .error e
      | .ok (node_to_print, i) =>
        match eat ts i .END_STATEMENT with
        | .error e => .error e
        | .ok (_, i) => .ok (.print node_to_print, i)
termination_by structural fuel _ _ => fuel

/-- `Parser.var_declaration` (the leading type keyword was checked by the
dispatcher and is consumed by a plain `advance`). -/
def var_declarationF : Nat → List Token → Nat → PRes Node
  | 0, _, _ => .error .fuel
  | fuel + 1, ts, i =>
    let type_token := curTok ts i
    let i := i + 1
    let var_name_token := curTok ts i
    match eat ts i .IDENTIFIER with
    | .error e => .error e
    | .ok (_, i) =>
      if (curTok ts i).ttype = .ASSIGN then
        match eat ts i .ASSIGN with
        | .error e => .error e
        | .ok (_, i) =>
          match expressionF fuel ts i with
          | .error e => .error e
          | .ok (value_node, i) =>
            match eat ts i .END_STATEMENT with
            | .error e => .error e
            | .ok (_, i) => .ok (.varDeclare type_token var_name_token (some value_node), i)
      else
        match eat ts i .END_STATEMENT with
        | .error e => .error e
        | .ok (_, i) => .ok (.varDeclare type_token var_name_token none, i)
termination_by structural fuel _ _ => fuel

/-- `Parser.var_assignment`. -/
def var_assignmentF : Nat → List Token → Nat → PRes Node
  | 0, _, _ => .error .fuel
  | fuel + 1, ts, i =>
    let var_name_token := curTok ts i
    match eat ts i .IDENTIFIER with
    | .error e => .error e
    | .ok (_, i) =>
      match eat ts i .ASSIGN with
      | .error e => .error e
      | .ok (_, i) =>
        match expressionF fuel ts i with
        | .error e => .error e
        | .ok (value_node, i) =>
          match eat ts i .END_STATEMENT with
          | .error e => .error e
          | .ok (_, i) => .ok (.varAssign var_name_token value_node, i)
termination_by structural fuel _ _ => fuel

/-- `Parser.list_append`. -/
def list_appendF : Nat → List Token → Nat → PRes Node
  | 0, _, _ => .error .fuel
  | fuel + 1, ts, i =>
    let list_var_token := curTok ts i
    match eat ts i .IDENTIFIER with
    | .error e => .error e
    | .ok (_, i) =>
      match eat ts i .KEYWORD_APPEND with
      | .error e => .error e
      | .ok (_, i) =>
        match expressionF fuel ts i with
        | .error e => .error e
        | .ok (value_node, i) =>
          match eat ts i .END_STATEMENT with
          | .error e => .error e
          | .ok (_, i) => .ok (.listAppend list_var_token value_node, i)
termination_by structural fuel _ _ => fuel

/-- `Parser.list_remove`. -/
def list_removeF : Nat → List Token → Nat → PRes Node
  | 0, _, _ => .error .fuel
  | fuel + 1, ts, i =>
    let list_var_token := curTok ts i
    match eat ts i .IDENTIFIER with
    | .error e => .error e
    | .ok (_, i) =>
      match eat ts i .KEYWORD_REMOVE with
      | .error e => .error e
      | .ok (_, i) =>
        match expressionF fuel ts i with
        | .error e => .error e
        | .ok (index_node, i) =>
          match eat ts i .END_STATEMENT with
          | .error e => .error e
          | .ok (_, i) => .ok (.listRemove list_var_token index_node, i)
termination_by structural fuel _ _ => fuel

/-- `Parser.if_statement`: mandatory if-case, elif loop, optional else. -/
def if_statementF : Nat → List Token → Nat → PRes Node
  | 0, _, _ => .error .fuel
  | fuel + 1, ts, i =>
    match eat ts i .KEYWORD_IF with
    | .error e => .error e
    | .ok (_, i) =>
      match expressionF fuel ts i with
      | .error e => .error e
      | .ok (condition, i) =>
        match blockF fuel ts i with
        | .error e => .error e
        | .ok (body, i) =>
          match elifLoopF fuel ts i with
          | .error e => .error e
          | .ok (more_cases, i) =>
            if (curTok ts i).ttype = .KEYWORD_ELSE then
              match eat ts i .KEYWORD_ELSE with
              | .error e => .error e
              | .ok (_, i) =>
                match blockF fuel ts i with
                | .error e => .error e
                | .ok (else_case, i) =>
                  .ok (.ifNode ((condition, body) :: more_cases) (some else_case), i)
            else .ok (.ifNode ((condition, body) :: more_cases) none, i)
termination_by structural fuel _ _ => fuel

/-- The elif loop of `Parser.if_statement`. -/
def elifLoopF : Nat → List Token → Nat → PRes (List (Node × Node))
  | 0, _, _ => .error .fuel
  | fuel + 1, ts, i =>
    if (curTok ts i).ttype = .KEYWORD_ELIF then
      match eat ts i .KEYWORD_ELIF with
      | .error e => .error e
      | .ok (_, i) =>
        match expressionF fuel ts i with
        | .error e => .error e
        | .ok (condition, i) =>
          match blockF fuel ts i with
          | .error e => .error e
          | .ok (body, i) =>
            match elifLoopF fuel ts i with
            | .error e => .error e
            | .ok (rest, i) => .ok ((condition, body) :: rest, i)
    else .ok ([], i)
termination_by structural fuel _ _ => fuel

/-- `Parser.block`. -/
def blockF : Nat → List Token → Nat → PRes Node
  | 0, _, _ => .error .fuel
  | fuel + 1, ts, i =>
    match eat ts i .BLOCK_START with
    | .error e => .error e
    | .ok (_, i) =>
      match statementsF fuel ts .BLOCK_END i with
      | .error e => .error e
      | .ok (statements_list, i) =>
        match eat ts i .BLOCK_END with
        | .error e => .error e
        | .ok (_, i) => .ok (.block statements_list, i)
termination_by structural fuel _ _ => fuel

/-- `Parser.func_definition`. -/
def func_definitionF : Nat → List Token → Nat → PRes Node
  | 0, _, _ => .error .fuel
  | fuel + 1, ts, i =>
    match eat ts i .KEYWORD_FUN with
    | .error e => .error e
    | .ok (_, i) =>
      let func_name_token := curTok ts i
      match eat ts i .IDENTIFIER with
      | .error e => .error e
      | .ok (_, i) =>
        match argLoopF fuel ts i with
        | .error e => .error e
        | .ok (arg_name_tokens, i) =>
          match blockF fuel ts i with
          | .error e => .error e
          | .ok (body_node, i) => .ok (.funcDef func_name_token arg_name_tokens body_node, i)
termination_by structural fuel _ _ => fuel

/-- The greedy parameter-name loop of `Parser.func_definition`. -/
def argLoopF : Nat → List Token → Nat → PRes (List Token)
  | 0, _, _ => .error .fuel
  | fuel + 1, ts, i =>
    if (curTok ts i).ttype = .IDENTIFIER then
      let tok := curTok ts i
      match eat ts i .IDENTIFIER with
      | .error e => .error e
      | .ok (_, i) =>
        match argLoopF fuel ts i with
        | .error e => .error e
        | .ok (rest, i) => .ok (tok :: rest, i)
    else .ok ([], i)
termination_by structural fuel _ _ => fuel

/-- `Parser.return_statement`. -/
def return_statementF : Nat → List Token → Nat → PRes Node
  | 0, _, _ => .error .fuel
  | fuel + 1, ts, i =>
    match eat ts i .KEYWORD_RETURN with
    | .error e => .error e
    | .ok (_, i) =>
      if (curTok ts i).ttype = .END_STATEMENT then
        match eat ts i .END_STATEMENT with
        | .error e => .error e
        | .ok (_, i) => .ok (.ret none, i)
      else
        match expressionF fuel ts i with
        | .error e => .error e
        | .ok (node_to_return, i) =>
          match eat ts i .END_STATEMENT with
          | .error e => .error e
          | .ok (_, i) => .ok (.ret (some node_to_return), i)
termination_by structural fuel _ _ => fuel

/-- `Parser.save_statement`. -/
def save_statementF : Nat → List Token → Nat → PRes Node
  | 0, _, _ => .error .fuel
  | fuel + 1, ts, i =>
    match eat ts i .KEYWORD_SAVE with
    | .error e => .error e
    | .ok (_, i) =>
      match expressionF fuel ts i with
      | .error e => .error e
      | .ok (data_node, i) =>
        match expressionF fuel ts i with
        | .error e => .error e
        | .ok (filename_node, i) =>
          match eat ts i .END_STATEMENT with
          | .error e => .error e
          | .ok (_, i) => .ok (.save data_node filename_node, i)
termination_by structural fuel _ _ => fuel

/-- `Parser.sleep_statement`. -/
def sleep_statementF : Nat → List Token → Nat → PRes Node
  | 0, _, _ => .error .fuel
  | fuel + 1, ts, i =>
    match eat ts i .KEYWORD_SLEEP with
    | .error e => .error e
    | .ok (_, i) =>
      match expressionF fuel ts i with
      | .error e => .error e
      | .ok (duration_node, i) =>
        match eat ts i .END_STATEMENT with
        | .error e => .error e
        | .ok (_, i) => .ok (.sleep duration_node, i)
termination_by structural fuel _ _ => fuel

/-- `Parser.expression` (entry point; currently just `comparison`). -/
def expressionF : Nat → List Token → Nat → PRes Node
  | 0, _, _ => .error .fuel
  | fuel + 1, ts, i => levelF fuel .comparison ts i
termination_by structural fuel _ _ => fuel

/-- One precedence level: parse at the next-higher level, then run the
operator loop (`Parser.binary_operation`, instantiated at
`comparison`/`term`/`factor`). -/
def levelF : Nat → Lvl → List Token → Nat → PRes Node
  | 0, _, _, _ => .error .fuel
  | fuel + 1, lvl, ts, i =>
    match subLevelF fuel lvl ts i with
    | .error e => .error e
    | .ok (left, i) => binLoopF fuel lvl left ts i
termination_by structural fuel _ _ _ => fuel

/-- The `func_to_call` of each level: the next-higher precedence level
(`unary` below `factor`). -/
def subLevelF : Nat → Lvl → List Token → Nat → PRes Node
  | 0, _, _, _ => .error .fuel
  | fuel + 1, lvl, ts, i =>
    match lvl with
    | .comparison => levelF fuel .term ts i
    | .term => levelF fuel .factor ts i
    | .factor => unaryF fuel ts i
termination_by structural fuel _ _ _ => fuel

/-- The while-loop of `Parser.binary_operation`: as long as the current
token is a valid operator of this level, consume it, parse the right
operand at the next-higher level, and fold leftward into a `BinOpNode`. -/
def binLoopF : Nat → Lvl → Node → List Token → Nat → PRes Node
  | 0, _, _, _, _ => .error .fuel
  | fuel + 1, lvl, left, ts, i =>
    if (curTok ts i).ttype ∈ lvlOps lvl then
      let op_token := curTok ts i
      match eat ts i op_token.ttype with
      | .error e => .error e
      | .ok (_, i) =>
        match subLevelF fuel lvl ts i with
        | .error e => .error e
        | .ok (right, i) => binLoopF fuel lvl (.binOp left op_token right) ts i
    else .ok (left, i)
termination_by structural fuel _ _ _ _ => fuel

/-- `Parser.unary`: strip `LOGIC_NOT` prefixes recursively, else `atom`. -/
def unaryF : Nat → List Token → Nat → PRes Node
  | 0, _, _ => .error .fuel
  | fuel + 1, ts, i =>
    if (curTok ts i).ttype = .LOGIC_NOT then
      let op_token := curTok ts i
      match eat ts i .LOGIC_NOT with
      | .error e => .error e
      | .ok (_, i) =>
        match unaryF fuel ts i with
        | .error e => .error e
        | .ok (node, i) => .ok (.unaryOp op_token node, i)
    else atomF fuel ts i
termination_by structural fuel _ _ => fuel

/-- `Parser.atom`: number, string or variable access; anything else is a
syntax error. -/
def atomF : Nat → List Token → Nat → PRes Node
  | 0, _, _ => .error .fuel
  | _ + 1, ts, i =>
    let token := curTok ts i
    if token.ttype = .LIT_INT ∨ token.ttype = .LIT_REAL then
      match eat ts i token.ttype with
      | .error e => .error e
      | .ok (_, i) => .ok (.number token, i)
    else if token.ttype = .LIT_STRING then
      match eat ts i .LIT_STRING with
      | .error e => .error e
      | .ok (_, i) => .ok (.strNode token, i)
    else if token.ttype = .IDENTIFIER then
      match eat ts i .IDENTIFIER with
      | .error e => .error e
      | .ok (_, i) => .ok (.varAccess token, i)
    else
      .error (.syn ("Esperava um Inteiro, Real, String ou Identificador, mas encontrou: "
        ++ tokStr token))
termination_by structural fuel _ _ => fuel

end

/-- `Parser.parse`: eat the program-start token, read statements up to the
program terminator, eat it, and require end-of-input to be the current
token; leftover code is a `SyntaxError`.  (On an empty token list the host
would crash dereferencing `None`; `.crash` models that.) -/
def parseF (fuel : Nat) (ts : List Token) : PRes Node :=
  if ts.isEmpty then .error .crash
  else
    match eat ts 0 .PROGRAM_START with
    | .error e => .error e
    | .ok (_, i) =>
      match statementsF fuel ts .PROGRAM_END i with
      | .error e => .error e
      | .ok (statements, i) =>
        match eat ts i .PROGRAM_END with
        | .error e => .error e
        | .ok (_, i) =>
          if (curTok ts i).ttype ≠ .EOF then
            .error (.syn "Código encontrado após o fim do programa '🌳'.")
          else .ok (.program statements, i)

/-! ## Runtime values and environment (`Moji/interpreter.py`) -/

/-- A Python runtime value of the interpreter: `int`, `float`, `str`,
`bool`, `list`, a stored `FuncDefNode` (the symbol table stores the AST node
itself), or `None`. -/
inductive Value
  | vint (n : Int)
  | vreal (q : ℚ)
  | vstr (s : String)
  | vbool (b : Bool)
  | vlist (xs : List Value)
  | vfunc (func_name_token : Token) (arg_name_tokens : List Token) (body_node : Node)
  | vnone
deriving Repr

/-- Insertion-ordered dictionary lookup (first match; keys are unique by
construction). -/
def alGet {α : Type} : List (String × α) → String → Option α
  | [], _ => none
  | (k, v) :: rest, key => if k = key then some v else alGet rest key

def alContains {α : Type} (l : List (String × α)) (key : String) : Bool :=
  (alGet l key).isSome

/-- `d[k] = v` on an insertion-ordered dictionary: update in place if the
key exists, else append at the end. -/
def alSet {α : Type} : List (String × α) → String → α → List (String × α)
  | [], key, v => [(key, v)]
  | (k, v') :: rest, key, v =>
    if k = key then (key, v) :: rest else (k, v') :: alSet rest key v

/-- `del d[k]` (no-op if absent; the host would raise `KeyError`, which no
modelled code path reaches with an absent key except the duplicate-parameter
corner noted at `restoreArgs`). -/
def alErase {α : Type} : List (String × α) → String → List (String × α)
  | [], _ => []
  | (k, v) :: rest, key => if k = key then rest else (k, v) :: alErase rest key

/-- The interpreter's symbol table. -/
abbrev Env := List (String × Value)

/-- Interpreter state: the symbol table plus the modelled external world
(console output lines, a file system mapping names to contents, and the
pending console input lines). -/
structure St where
  env : Env
  out : List String
  fs : List (String × String)
  inp : List String
deriving Repr

/-- A raised Python exception of the interpreter: a `RuntimeError` (with its
message, without the `"Runtime Error: "` prefix added by `__init__`), the
`ReturnSignal` used by `🔙`, any other host exception (`.internal`, e.g. a
`TypeError` from an unsupported operand), or fuel exhaustion of the model. -/
inductive Exc
  | rte (msg : String)
  | retSig (value : Value)
  | internal (msg : String)
  | fuel
deriving Repr

/-- An evaluation outcome, carrying the state at return / raise time (the
symbol table is an attribute of the interpreter object, so mutations made
before an exception persist). -/
inductive Res (α : Type)
  | ok (a : α) (s : St)
  | err (e : Exc) (s : St)
deriving Repr

def bInt (b : Bool) : Int := if b then 1 else 0

/-- Numeric view of a value (`bool` is a subtype of `int` on the host). -/
def toQ : Value → ℚ
  | .vint n => (n : ℚ)
  | .vreal q => q
  | .vbool b => (bInt b : ℚ)
  | _ => 0

def isNumV : Value → Bool
  | .vint _ => true
  | .vreal _ => true
  | .vbool _ => true
  | _ => false

def isStrV : Value → Bool
  | .vstr _ => true
  | _ => false

/-- Python truthiness (`bool(value)`). -/
def truthy : Value → Bool
  | .vint n => n != 0
  | .vreal q => q != 0
  | .vstr s => s != ""
  | .vbool b => b
  | .vlist xs => !xs.isEmpty
  | .vfunc _ _ _ => true
  | .vnone => false

mutual

/-- `str(value)`.  Stored function nodes render as a placeholder (the host
would print an object address); list elements use the element repr. -/
def pyStr : Value → String
  | .vint n => toString n
  | .vreal q => pyStrReal q
  | .vstr s => s
  | .vbool b => if b then "True" else "False"
  | .vlist xs => "[" ++ String.intercalate ", " (pyReprList xs) ++ "]"
  | .vfunc _ _ _ => "<FuncDefNode>"
  | .vnone => "None"

def pyReprList : List Value → List String
  | [] => []
  | x :: rest => pyReprOne x :: pyReprList rest

def pyReprOne : Value → String
  | .vstr s => "'" ++ s ++ "'"
  | .vint n => toString n
  | .vreal q => pyStrReal q
  | .vbool b => if b then "True" else "False"
  | .vlist xs => "[" ++ String.intercalate ", " (pyReprList xs) ++ "]"
  | .vfunc _ _ _ => "<FuncDefNode>"
  | .vnone => "None"

end

mutual

/-- Python `==` on runtime values: numeric kinds compare by value,
strings/lists structurally, mismatched kinds are unequal.  (For stored
function nodes the host compares object identity; no modelled program
compares functions.) -/
def pyEq : Value → Value → Bool
  | .vstr a, .vstr b => a == b
  | .vlist a, .vlist b => pyEqList a b
  | .vnone, .vnone => true
  | .vfunc _ _ _, .vfunc _ _ _ => false
  | a, b => isNumV a && isNumV b && toQ a == toQ b

def pyEqList : List Value → List Value → Bool
  | [], [] => true
  | a :: as', b :: bs' => pyEq a b && pyEqList as' bs'
  | _, _ => false

end

/-- Python `<`: numeric kinds by value, strings lexicographically; other
combinations are a host `TypeError` (the host also orders lists elementwise;
no modelled claim compares lists). -/
def pyLt (a b : Value) : Except Unit Bool :=
  match a, b with
  | .vstr x, .vstr y => .ok (decide (x < y))
  | _, _ => if isNumV a && isNumV b then .ok (decide (toQ a < toQ b)) else .error ()

/-- `s * n` (string repetition; non-positive counts give the empty string). -/
def strRepeat (s : String) (n : Int) : String :=
  String.join (List.replicate n.toNat s)

def listRepeat (xs : List Value) (n : Int) : List Value :=
  (List.replicate n.toNat xs).join

/-- The non-string branch of `+`: numeric addition (int-preserving),
list concatenation, otherwise a host `TypeError`. -/
def pyAdd : Value → Value → Except Exc Value
  | .vint a, .vint b => .ok (.vint (a + b))
  | .vint a, .vbool b => .ok (.vint (a + bInt b))
  | .vbool a, .vint b => .ok (.vint (bInt a + b))
  | .vbool a, .vbool b => .ok (.vint (bInt a + bInt b))
  | .vlist a, .vlist b => .ok (.vlist (a ++ b))
  | a, b =>
    if isNumV a && isNumV b then .ok (.vreal (toQ a + toQ b))
    else .error (.internal "TypeError: operandos não suportados para +")

def pySub : Value → Value → Except Exc Value
  | .vint a, .vint b => .ok (.vint (a - b))
  | .vint a, .vbool b => .ok (.vint (a - bInt b))
  | .vbool a, .vint b => .ok (.vint (bInt a - b))
  | .vbool a, .vbool b => .ok (.vint (bInt a - bInt b))
  | a, b =>
    if isNumV a && isNumV b then .ok (.vreal (toQ a - toQ b))
    else .error (.internal "TypeError: operandos não suportados para -")

def pyMul : Value → Value → Except Exc Value
  | .vint a, .vint b => .ok (.vint (a * b))
  | .vint a, .vbool b => .ok (.vint (a * bInt b))
  | .vbool a, .vint b => .ok (.vint (bInt a * b))
  | .vbool a, .vbool b => .ok (.vint (bInt a * bInt b))
  | .vstr s, .vint n => .ok (.vstr (strRepeat s n))
  | .vint n, .vstr s => .ok (.vstr (strRepeat s n))
  | .vstr s, .vbool b => .ok (.vstr (strRepeat s (bInt b)))
  | .vbool b, .vstr s => .ok (.vstr (strRepeat s (bInt b)))
  | .vlist xs, .vint n => .ok (.vlist (listRepeat xs n))
  | .vint n, .vlist xs => .ok (.vlist (listRepeat xs n))
  | .vlist xs, .vbool b => .ok (.vlist (listRepeat xs (bInt b)))
  | .vbool b, .vlist xs => .ok (.vlist (listRepeat xs (bInt b)))
  | a, b =>
    if isNumV a && isNumV b then .ok (.vreal (toQ a * toQ b))
    else .error (.internal "TypeError: operandos não suportados para *")

/-- Python `/` (true division; always a float on numerics). The
divisor-zero check happens in `binOpEval` before this is reached. -/
def pyDiv (a b : Value) : Except Exc Value :=
  if isNumV a && isNumV b then .ok (.vreal (toQ a / toQ b))
  else .error (.internal "TypeError: operandos não suportados para /")

/-- The operator dispatch of `Interpreter.visit_BinOpNode` (an if/elif chain
on the operator's token type in the source), applied to the two
already-evaluated operand values. -/
def binOpEval (op_type : TokType) (left_val right_val : Value) : Except Exc Value :=
  match op_type with
  | .OP_PLUS =>
    -- If one side is a string, force concatenation; otherwise numeric addition.
    if isStrV left_val || isStrV right_val then
      .ok (.vstr (pyStr left_val ++ pyStr right_val))
    else pyAdd left_val right_val
  | .OP_MINUS => pySub left_val right_val
  | .OP_MUL => pyMul left_val right_val
  | .OP_DIV =>
    if pyEq right_val (.vint 0) then .error (.rte "Divisão por zero.")
    else pyDiv left_val right_val
  | .COMP_EQ => .ok (.vbool (pyEq left_val right_val))
  | .COMP_GT =>
    match pyLt right_val left_val with
    | .ok b => .ok (.vbool b)
    | .error _ => .error (.internal "TypeError: comparação entre tipos não suportada")
  | .COMP_LT =>
    match pyLt left_val right_val with
    | .ok b => .ok (.vbool b)
    | .error _ => .error (.internal "TypeError: comparação entre tipos não suportada")
  | .LOGIC_AND => .ok (.vbool (truthy left_val && truthy right_val))
  | .LOGIC_OR => .ok (.vbool (truthy left_val || truthy right_val))
  | op => .error (.rte ("Operador binário desconhecido: " ++ ttStr op))

/-- The name carried by an identifier token (`token.value`). -/
def tokName (t : Token) : String :=
  match t.tval with
  | .vstr s => s
  | _ => ""

/-- A literal token's value as a runtime value (`node.value`). -/
def tokValue : TokVal → Value
  | .vnone => .vnone
  | .vint n => .vint n
  | .vreal q => .vreal q
  | .vstr s => .vstr s

/-- `isinstance(v, int)` (true of `bool` as well): the host value used as a
list index. -/
def pyIndex : Value → Option Int
  | .vint n => some n
  | .vbool b => some (bInt b)
  | _ => none

/-- Python list indexing (negative indices count from the end). -/
def pyListGet (xs : List Value) (n : Int) : Option Value :=
  let m := if n < 0 then n + xs.length else n
  if 0 ≤ m ∧ m.toNat < xs.length then xs.get? m.toNat else none

/-- Python `list.pop(n)`: the list with the element at (possibly negative)
index `n` removed, or `none` for `IndexError`. -/
def pyPop (xs : List Value) (n : Int) : Option (List Value) :=
  let m := if n < 0 then n + xs.length else n
  if 0 ≤ m ∧ m.toNat < xs.length then some (xs.take m.toNat ++ xs.drop (m.toNat + 1))
  else none

def stripChars (cs : List Char) : List Char :=
  ((cs.dropWhile isSpaceChar).reverse.dropWhile isSpaceChar).reverse

/-- `int(s)` on a string: optional sign and decimal digits (the host also
accepts underscores and other numeral systems; no modelled program uses
them).  `none` is the host's `ValueError`. -/
def strIntParse (s : String) : Option Int :=
  let cs := stripChars s.data
  match cs with
  | '-' :: rest =>
    if rest ≠ [] ∧ rest.all Char.isDigit then some (-(parseIntDigits rest : Int)) else none
  | '+' :: rest =>
    if rest ≠ [] ∧ rest.all Char.isDigit then some ((parseIntDigits rest : Int)) else none
  | _ => if cs ≠ [] ∧ cs.all Char.isDigit then some ((parseIntDigits cs : Int)) else none

def floatBody (cs : List Char) : Option ℚ :=
  let ip := cs.takeWhile Char.isDigit
  let rest := cs.drop ip.length
  match rest with
  | [] => if ip ≠ [] then some ((parseIntDigits ip : ℚ)) else none
  | '.' :: fp =>
    if fp.all Char.isDigit ∧ (ip ≠ [] ∨ fp ≠ []) then
      some ((parseIntDigits ip : ℚ) + (parseIntDigits fp : ℚ) / ((10 : ℚ) ^ fp.length))
    else none
  | _ => none

/-- `float(s)` on a string: optional sign, digits with at most one dot (the
host also accepts exponents and specials; no modelled program uses them). -/
def strFloatParse (s : String) : Option ℚ :=
  let cs := stripChars s.data
  match cs with
  | '-' :: rest => (floatBody rest).map (fun q => -q)
  | '+' :: rest => floatBody rest
  | _ => floatBody cs

/-- Truncation toward zero (`int(float)` on the host). -/
def ratTrunc (q : ℚ) : Int := if 0 ≤ q then ⌊q⌋ else ⌈q⌉

/-- The two host exceptions a failed conversion can raise. -/
inductive CastFail
  | valueErr
  | typeErr
deriving DecidableEq, Repr

/-- `int(value)`. -/
def castToInt : Value → Except CastFail Int
  | .vint n => .ok n
  | .vreal q => .ok (ratTrunc q)
  | .vbool b => .ok (bInt b)
  | .vstr s =>
    match strIntParse s with
    | some n => .ok n
    | none => .error .valueErr
  | _ => .error .typeErr

/-- `float(value)`. -/
def castToFloat : Value → Except CastFail ℚ
  | .vint n => .ok (n : ℚ)
  | .vreal q => .ok q
  | .vbool b => .ok (bInt b : ℚ)
  | .vstr s =>
    match strFloatParse s with
    | some q => .ok q
    | none => .error .valueErr
  | _ => .error .typeErr

/-- The merge loop of `Interpreter.visit_ImportNode`: copy the module's
bindings into the caller's table one name at a time, checking each name for
a collision against the (growing) caller table before inserting it; on a
collision, raise carrying the caller table as merged so far. -/
def importMerge (filename : String) : Env → Env → Except (String × Env) Env
  | caller, [] => .ok caller
  | caller, (key, value) :: rest =>
    if alContains caller key then
      .error ("Importação ⚙️ de '" ++ filename ++ "' falhou: '" ++ key
        ++ "' já existe no escopo atual.", caller)
    else importMerge filename (alSet caller key value) rest

/-- `saved_vars`: the existing bindings for the parameter names. -/
def savedOf (env : Env) : List String → Env
  | [] => []
  | n :: rest =>
    match alGet env n with
    | some v => (n, v) :: savedOf env rest
    | none => savedOf env rest

/-- Inject the argument values under the parameter names (`zip` order). -/
def injectArgs (env : Env) : List String → List Value → Env
  | n :: ns, v :: vs => injectArgs (alSet env n v) ns vs
  | _, _ => env

/-- Restore the saved bindings (or delete names that had none) after a
call.  (With duplicated parameter names the host's second `del` would raise
`KeyError`; modelled as a no-op erase.) -/
def restoreArgs (env : Env) (saved : Env) : List String → Env
  | [] => env
  | n :: ns =>
    match alGet saved n with
    | some v => restoreArgs (alSet env n v) saved ns
    | none => restoreArgs (alErase env n) saved ns

/-- The string `str(e)` of a raised interpreter exception, as the import
wrapper interpolates it. -/
def excStr : Exc → String
  | .rte m => "Runtime Error: " ++ m
  | .retSig _ => ""
  | .internal m => m
  | .fuel => ""

/-! ## The tree-walking evaluator (`Interpreter.visit_*`)

Every mutual function consumes one unit of fuel per call; `.fuel` is the
out-of-fuel outcome, distinct from every error of the modelled program. -/

mutual

/-- `Interpreter.visit`, dispatching to the per-node evaluation rules. -/
def visit : Nat → Node → St → Res Value
  | 0, _, s => .err .fuel s
  | fuel + 1, node, s =>
    match node with
    | .number token => .ok (tokValue token.tval) s
    | .strNode token => .ok (tokValue token.tval) s
    | .varAccess tok =>
      -- visit_VarAccessNode: a missing name and a stored None both read as
      -- `None` and raise the same error.
      let var_name := tokName tok
      match alGet s.env var_name with
      | some (.vnone) | none =>
        .err (.rte ("Variável '" ++ var_name ++ "' não foi definida.")) s
      | some v => .ok v s
    | .listAccess list_node index_node =>
      match visit fuel list_node s with
      | .err e s => .err e s
      | .ok list_val s =>
        match visit fuel index_node s with
        | .err e s => .err e s
        | .ok index_val s =>
          match list_val with
          | .vlist xs =>
            match pyIndex index_val with
            | none =>
              .err (.rte "Índice para 🎯 (acessar índice) deve ser um inteiro 🔢.") s
            | some n =>
              match pyListGet xs n with
              | some v => .ok v s
              | none =>
                .err (.rte ("Índice " ++ pyStr index_val
                  ++ " fora do alcance para a lista.")) s
          | _ =>
            .err (.rte "Não é possível usar 🎯 (acessar índice) em algo que não é uma lista 📜.") s
    | .fileRead filename_node =>
      match visit fuel filename_node s with
      | .err e s => .err e s
      | .ok fv s =>
        match fv with
        | .vstr filename =>
          match alGet s.fs filename with
          | some content => .ok (.vstr content) s
          | none => .err (.rte ("Arquivo '" ++ filename ++ "' não encontrado.")) s
        | _ => .err (.rte "Nome do arquivo para 📖 (Ler) deve ser uma string 💬.") s
    | .typeCast type_token expression_node =>
      match visit fuel expression_node s with
      | .err e s => .err e s
      | .ok value_to_cast s =>
        let target := type_token.ttype
        if target = .KEYWORD_INT then
          match castToInt value_to_cast with
          | .ok n => .ok (.vint n) s
          | .error .valueErr =>
            .err (.rte ("Não foi possível converter '" ++ pyStr value_to_cast
              ++ "' para o tipo " ++ ttStr target ++ ".")) s
          | .error .typeErr => .err (.internal "TypeError: conversão não suportada") s
        else if target = .KEYWORD_REAL then
          match castToFloat value_to_cast with
          | .ok q => .ok (.vreal q) s
          | .error .valueErr =>
            .err (.rte ("Não foi possível converter '" ++ pyStr value_to_cast
              ++ "' para o tipo " ++ ttStr target ++ ".")) s
          | .error .typeErr => .err (.internal "TypeError: conversão não suportada") s
        else if target = .KEYWORD_STRING then .ok (.vstr (pyStr value_to_cast)) s
        else .err (.rte ("Conversão de tipo desconhecida: " ++ ttStr target ++ ".")) s
    | .binOp left_node op_token right_node =>
      match visit fuel left_node s with
      | .err e s => .err e s
      | .ok left_val s =>
        match visit fuel right_node s with
        | .err e s => .err e s
        | .ok right_val s =>
          match binOpEval op_token.ttype left_val right_val with
          | .ok v => .ok v s
          | .error e => .err e s
    | .unaryOp op_token node =>
      match visit fuel node s with
      | .err e s => .err e s
      | .ok value s =>
        if op_token.ttype = .LOGIC_NOT then .ok (.vbool (!truthy value)) s
        else .err (.rte ("Operador unário desconhecido: " ++ ttStr op_token.ttype)) s
    | .program statements =>
      match visitSeq fuel statements s with
      | .err e s => .err e s
      | .ok _ s => .ok .vnone s
    | .block statements =>
      match visitSeq fuel statements s with
      | .err e s => .err e s
      | .ok _ s => .ok .vnone s
    | .varDeclare var_type_token var_name_token value_node =>
      let var_name := tokName var_name_token
      if alContains s.env var_name then
        .err (.rte ("Variável '" ++ var_name ++ "' já foi declarada.")) s
      else
        match value_node with
        | some vn =>
          match visit fuel vn s with
          | .err e s => .err e s
          | .ok value s => .ok .vnone { s with env := alSet s.env var_name value }
        | none =>
          let value : Value :=
            match var_type_token.ttype with
            | .KEYWORD_INT => .vint 0
            | .KEYWORD_REAL => .vreal 0
            | .KEYWORD_STRING => .vstr ""
            | .KEYWORD_LIST => .vlist []
            | _ => .vnone
          .ok .vnone { s with env := alSet s.env var_name value }
    | .varAssign var_name_token value_node =>
      let var_name := tokName var_name_token
      if !alContains s.env var_name then
        .err (.rte ("Variável '" ++ var_name
          ++ "' não declarada. Use 🔢, 💬, etc. para declarar.")) s
      else
        match visit fuel value_node s with
        | .err e s => .err e s
        | .ok value s => .ok .vnone { s with env := alSet s.env var_name value }
    | .print node_to_print =>
      match visit fuel node_to_print s with
      | .err e s => .err e s
      | .ok value_to_print s => .ok .vnone { s with out := s.out ++ [pyStr value_to_print] }
    | .readNode var_name_token =>
      let var_name := tokName var_name_token
      if !alContains s.env var_name then
        .err (.rte ("Variável '" ++ var_name ++ "' não declarada. Não é possível ler.")) s
      else
        let current_value := (alGet s.env var_name).getD .vnone
        match s.inp with
        | [] => .err (.internal "EOFError") s
        | input_str :: restInp =>
          let s := { s with inp := restInp }
          match current_value with
          | .vint _ | .vbool _ =>
            match strIntParse input_str with
            | some n => .ok .vnone { s with env := alSet s.env var_name (.vint n) }
            | none =>
              .err (.rte ("Entrada inválida. Esperado um tipo compatível com '"
                ++ var_name ++ "'.")) s
          | .vreal _ =>
            match strFloatParse input_str with
            | some q => .ok .vnone { s with env := alSet s.env var_name (.vreal q) }
            | none =>
              .err (.rte ("Entrada inválida. Esperado um tipo compatível com '"
                ++ var_name ++ "'.")) s
          | _ => .ok .vnone { s with env := alSet s.env var_name (.vstr input_str) }
    | .ifNode cases else_case => visitCases fuel cases else_case s
    | .whileNode condition_node body_node => whileLoop fuel condition_node body_node s
    | .forNode var_name_token list_node body_node =>
      match visit fuel list_node s with
      | .err e s => .err e s
      | .ok list_val s =>
        let var_name := tokName var_name_token
        match list_val with
        | .vlist items =>
          -- old_value = symbol_table.get(var_name, None)
          let old_value := (alGet s.env var_name).getD .vnone
          match forLoop fuel items var_name body_node s with
          | .err e s => .err e s
          | .ok _ s =>
            match old_value with
            | .vnone =>
              if alContains s.env var_name then
                .ok .vnone { s with env := alErase s.env var_name }
              else .ok .vnone s
            | v => .ok .vnone { s with env := alSet s.env var_name v }
        | _ => .err (.rte "Não é possível iterar 🚶 em algo que não é uma lista 📜.") s
    | .funcDef func_name_token arg_name_tokens body_node =>
      let func_name := tokName func_name_token
      if alContains s.env func_name then
        .err (.rte ("Função ou variável '" ++ func_name ++ "' já foi definida.")) s
      else
        .ok .vnone
          { s with env := alSet s.env func_name (.vfunc func_name_token arg_name_tokens body_node) }
    | .funcCall node_to_call arg_nodes =>
      match node_to_call with
      | .varAccess ftok =>
        let func_name := tokName ftok
        match alGet s.env func_name with
        | some (.vnone) | none =>
          .err (.rte ("Função '" ++ func_name ++ "' não foi definida 🧩.")) s
        | some (.vfunc _ arg_name_tokens body_node) =>
          -- 1. check the argument count before evaluating any argument
          let expected_count := arg_name_tokens.length
          let given_count := arg_nodes.length
          if expected_count ≠ given_count then
            .err (.rte ("Função '" ++ func_name ++ "' espera " ++ toString expected_count
              ++ " argumentos, mas recebeu " ++ toString given_count ++ ".")) s
          else
            -- 2. evaluate the arguments in the caller's current scope
            match evalArgs fuel arg_nodes s with
            | .err e s => .err e s
            | .ok arg_values s =>
              -- 3./4. save existing bindings, inject the arguments
              let arg_names := arg_name_tokens.map tokName
              let saved_vars := savedOf s.env arg_names
              match visit fuel body_node { s with env := injectArgs s.env arg_names arg_values } with
              -- 5./6. catch the return signal, restore the scope
              | .ok _ s =>
                .ok .vnone { s with env := restoreArgs s.env saved_vars arg_names }
              | .err (.retSig v) s =>
                .ok v { s with env := restoreArgs s.env saved_vars arg_names }
              | .err e s => .err e s
        | some _ =>
          .err (.rte ("'" ++ func_name ++ "' não é uma função 🧩. Não é possível chamar 📞.")) s
      | _ => .err (.internal "AttributeError: o nó chamado não tem var_name") s
    | .ret node_to_return =>
      match node_to_return with
      | some n =>
        match visit fuel n s with
        | .err e s => .err e s
        | .ok value_to_return s => .err (.retSig value_to_return) s
      | none => .err (.retSig .vnone) s
    | .listAppend list_var_token value_node =>
      let list_name := tokName list_var_token
      match alGet s.env list_name with
      | some (.vnone) | none =>
        .err (.rte ("Variável de lista '" ++ list_name ++ "' não encontrada.")) s
      | some (.vlist xs) =>
        match visit fuel value_node s with
        | .err e s => .err e s
        | .ok value_to_append s =>
          .ok .vnone { s with env := alSet s.env list_name (.vlist (xs ++ [value_to_append])) }
      | some _ =>
        .err (.rte ("'" ++ list_name ++ "' não é uma lista 📜. Não é possível usar ➕📜.")) s
    | .listRemove list_var_token index_node =>
      let list_name := tokName list_var_token
      match alGet s.env list_name with
      | some (.vlist xs) =>
        match visit fuel index_node s with
        | .err e s => .err e s
        | .ok index_to_remove s =>
          match pyIndex index_to_remove with
          | none => .err (.rte "Índice para remoção (➖📜) deve ser um inteiro 🔢.") s
          | some n =>
            match pyPop xs n with
            | some xs' => .ok .vnone { s with env := alSet s.env list_name (.vlist xs') }
            | none =>
              .err (.rte ("Índice " ++ pyStr index_to_remove
                ++ " fora do alcance para a lista '" ++ list_name ++ "'.")) s
      | _ => .err (.rte ("'" ++ list_name ++ "' não é uma lista 📜. Não é possível usar ➖📜.")) s
    | .save data_node filename_node =>
      match visit fuel data_node s with
      | .err e s => .err e s
      | .ok data s =>
        match visit fuel filename_node s with
        | .err e s => .err e s
        | .ok fv s =>
          match fv with
          | .vstr filename => .ok .vnone { s with fs := alSet s.fs filename (pyStr data) }
          | _ => .err (.rte "Nome do arquivo para 💾 (Salvar) deve ser uma string 💬.") s
    | .fileAppend data_node filename_node =>
      match visit fuel data_node s with
      | .err e s => .err e s
      | .ok data s =>
        match visit fuel filename_node s with
        | .err e s => .err e s
        | .ok fv s =>
          match fv with
          | .vstr filename =>
            let existing := (alGet s.fs filename).getD ""
            .ok .vnone { s with fs := alSet s.fs filename (existing ++ pyStr data) }
          | _ => .err (.rte "Nome do arquivo para ✍️ (Anexar) deve ser uma string 💬.") s
    | .sleep duration_node =>
      match visit fuel duration_node s with
      | .err e s => .err e s
      | .ok duration s =>
        match castToFloat duration with
        | .ok _ => .ok .vnone s
        | .error _ => .err (.rte "Duração para ⏱️ (Sleep) deve ser um número (int ou real).") s
    | .importNode module_name_token =>
      let module_name := tokName module_name_token
      let filename := module_name ++ ".moji"
      match alGet s.fs filename with
      | none =>
        .err (.rte ("Arquivo de módulo '" ++ filename ++ "' não encontrado para importar ⚙️.")) s
      | some code =>
        match make_tokens fuel code with
        | .error .fuel => .err .fuel s
        -- a lex error is a plain host Exception; the import's
        -- `except (SyntaxError, RuntimeError)` does not catch it
        | .error (.lex m) => .err (.internal m) s
        | .ok tokens =>
          match parseF fuel tokens with
          | .error .fuel => .err .fuel s
          | .error .crash => .err (.internal "AttributeError: NoneType") s
          | .error (.syn m) =>
            .err (.rte ("Erro ao importar ⚙️ o módulo '" ++ filename ++ "':\n"
              ++ "Erro de Sintaxe: " ++ m)) s
          | .ok (ast, _) =>
            -- run the module in a brand-new interpreter (fresh symbol
            -- table, shared console and file system)
            match runTop fuel ast { s with env := [] } with
            | .ok _ s2 =>
              match importMerge filename s.env s2.env with
              | .ok merged => .ok .vnone { s2 with env := merged }
              | .error (m, mergedSoFar) =>
                .err (.rte ("Erro ao importar ⚙️ o módulo '" ++ filename ++ "':\n"
                  ++ "Runtime Error: " ++ m)) { s2 with env := mergedSoFar }
            | .err (.rte m) s2 =>
              .err (.rte ("Erro ao importar ⚙️ o módulo '" ++ filename ++ "':\n"
                ++ "Runtime Error: " ++ m)) { s2 with env := s.env }
            | .err e s2 => .err e { s2 with env := s.env }
termination_by structural fuel _ _ => fuel

/-- Sequential execution of a statement list (`visit_ProgramNode` /
`visit_BlockNode` bodies). -/
def visitSeq : Nat → List Node → St → Res Unit
  | 0, _, s => .err .fuel s
  | _ + 1, [], s => .ok () s
  | fuel + 1, n :: rest, s =>
    match visit fuel n s with
    | .err e s => .err e s
    | .ok _ s => visitSeq fuel rest s
termination_by structural fuel _ _ => fuel

/-- `visit_IfNode`: first truthy condition wins, else the else-block. -/
def visitCases : Nat → List (Node × Node) → Option Node → St → Res Value
  | 0, _, _, s => .err .fuel s
  | fuel + 1, [], else_case, s =>
    match else_case with
    | some b =>
      match visit fuel b s with
      | .err e s => .err e s
      | .ok _ s => .ok .vnone s
    | none => .ok .vnone s
  | fuel + 1, (condition_node, body_node) :: rest, else_case, s =>
    match visit fuel condition_node s with
    | .err e s => .err e s
    | .ok condition_value s =>
      if truthy condition_value then
        match visit fuel body_node s with
        | .err e s => .err e s
        | .ok _ s => .ok .vnone s
      else visitCases fuel rest else_case s
termination_by structural fuel _ _ _ => fuel

/-- `visit_WhileNode`: re-evaluate the condition before every iteration. -/
def whileLoop : Nat → Node → Node → St → Res Value
  | 0, _, _, s => .err .fuel s
  | fuel + 1, condition_node, body_node, s =>
    match visit fuel condition_node s with
    | .err e s => .err e s
    | .ok condition_value s =>
      if truthy condition_value then
        match visit fuel body_node s with
        | .err e s => .err e s
        | .ok _ s => whileLoop fuel condition_node body_node s
      else .ok .vnone s
termination_by structural fuel _ _ _ => fuel

/-- The iteration loop of `visit_ForNode`: bind the loop variable in the
shared environment, then run the body, for each item in list order. -/
def forLoop : Nat → List Value → String → Node → St → Res Unit
  | 0, _, _, _, s => .err .fuel s
  | _ + 1, [], _, _, s => .ok () s
  | fuel + 1, item :: rest, var_name, body_node, s =>
    match visit fuel body_node { s with env := alSet s.env var_name item } with
    | .err e s => .err e s
    | .ok _ s => forLoop fuel rest var_name body_node s
termination_by structural fuel _ _ _ _ => fuel

/-- Left-to-right evaluation of the call arguments (in the caller's
scope). -/
def evalArgs : Nat → List Node → St → Res (List Value)
  | 0, _, s => .err .fuel s
  | _ + 1, [], s => .ok [] s
  | fuel + 1, n :: rest, s =>
    match visit fuel n s with
    | .err e s => .err e s
    | .ok v s =>
      match evalArgs fuel rest s with
      | .err e s => .err e s
      | .ok vs s => .ok (v :: vs) s
termination_by structural fuel _ _ => fuel

/-- `Interpreter.run`: the public entry point.  A return signal reaching the
top and any non-`RuntimeError` host exception are converted to
`RuntimeError`s here. -/
def runTop : Nat → Node → St → Res Value
  | 0, _, s => .err .fuel s
  | fuel + 1, ast, s =>
    match visit fuel ast s with
    | .err (.retSig _) s =>
      .err (.rte "Comando '🔙' (Return) encontrado fora de uma função 🧩.") s
    | .err (.internal m) s => .err (.rte ("Erro interno do Moji: " ++ m)) s
    | r => r
termination_by structural fuel _ _ => fuel

end

/-! ## Predicates used by the statements of the claims -/

/-- Default token for positional `List.getD` statements (its type, `EOF`,
never coincides with the token type under discussion at an out-of-range
position). -/
def dTok : Token := ⟨.EOF, .vnone⟩

/-- No token at a position in `[i, j)` is the program terminator. -/
def notEnd (ts : List Token) (i j : Nat) : Prop :=
  ∀ p, i ≤ p → p < j → (ts.getD p dTok).ttype ≠ .PROGRAM_END

/-- The shape every `make_tokens` output has: nonempty, with the single
end-of-input token at the final position. -/
def lexShaped (ts : List Token) : Prop :=
  ts ≠ [] ∧ (∀ p < ts.length - 1, (ts.getD p dTok).ttype ≠ .EOF) ∧
    (ts.getD (ts.length - 1) dTok).ttype = .EOF

mutual

/-- The node kinds the parser can construct: `true` exactly when the tree
contains no While, ForEach, FunctionCall, ListIndexRead, FileReadExpr,
TypeCast or FileAppend node. -/
def allowedB : Node → Bool
  | .program ss => allowedListB ss
  | .block ss => allowedListB ss
  | .number _ => true
  | .strNode _ => true
  | .varAccess _ => true
  | .binOp l _ r => allowedB l && allowedB r
  | .unaryOp _ n => allowedB n
  | .funcCall _ _ => false
  | .listAccess _ _ => false
  | .fileRead _ => false
  | .typeCast _ _ => false
  | .varDeclare _ _ v => allowedOptB v
  | .varAssign _ v => allowedB v
  | .print n => allowedB n
  | .readNode _ => true
  | .ifNode cs e => allowedPairsB cs && allowedOptB e
  | .whileNode _ _ => false
  | .forNode _ _ _ => false
  | .funcDef _ _ b => allowedB b
  | .ret v => allowedOptB v
  | .listAppend _ v => allowedB v
  | .listRemove _ v => allowedB v
  | .importNode _ => true
  | .save d f => allowedB d && allowedB f
  | .fileAppend _ _ => false
  | .sleep d => allowedB d

def allowedListB : List Node → Bool
  | [] => true
  | n :: rest => allowedB n && allowedListB rest

def allowedOptB : Option Node → Bool
  | none => true
  | some n => allowedB n

def allowedPairsB : List (Node × Node) → Bool
  | [] => true
  | (a, b) :: rest => allowedB a && allowedB b && allowedPairsB rest

end

/-- Token list `lit op₁ lit₁ … opₖ litₖ EOF`: one leading operand token,
then operator/operand pairs, then end-of-input. -/
def chainToks (first : Token) (rest : List (Token × Token)) : List Token :=
  first :: ((rest.bind fun p => [p.1, p.2]) ++ [dTok])

/-- The left-associative fold of a binary-operator chain. -/
def chainFold (first : Token) (rest : List (Token × Token)) : Node :=
  rest.foldl (fun acc p => .binOp acc p.1 (.number p.2)) (.number first)

/-- The six keyword token types for which neither the statement dispatcher
nor `atom` has a production: while ⏳, for 🚶, call 📞, get-at 🎯,
read-file 📖 and append-file ✍️. -/
def unreachableToks : List TokType :=
  [.KEYWORD_WHILE, .KEYWORD_FOR, .KEYWORD_CALL, .KEYWORD_GET_AT,
   .KEYWORD_READ_FILE, .KEYWORD_APPEND_FILE]

/-- The operator types of the levels strictly below a level (the ones whose
loops the sub-parse of that level runs through). -/
def strictBelow : Lvl → List TokType
  | .comparison => lvlOps .term ++ lvlOps .factor
  | .term => lvlOps .factor
  | .factor => []

/-- The induction bundle for the node-closure invariant of the mutual
parser: one conjunct per routine, stating that a successful parse only
builds allowed nodes. -/
def parserAllowed (fuel : Nat) : Prop :=
  (∀ ts endTT i rs j, statementsF fuel ts endTT i = .ok (rs, j) → allowedListB rs = true) ∧
  (∀ ts i r j, statementF fuel ts i = .ok (r, j) → allowedB r = true) ∧
  (∀ ts i r j, print_statementF fuel ts i = .ok (r, j) → allowedB r = true) ∧
  (∀ ts i r j, var_declarationF fuel ts i = .ok (r, j) → allowedB r = true) ∧
  (∀ ts i r j, var_assignmentF fuel ts i = .ok (r, j) → allowedB r = true) ∧
  (∀ ts i r j, list_appendF fuel ts i = .ok (r, j) → allowedB r = true) ∧
  (∀ ts i r j, list_removeF fuel ts i = .ok (r, j) → allowedB r = true) ∧
  (∀ ts i r j, if_statementF fuel ts i = .ok (r, j) → allowedB r = true) ∧
  (∀ ts i cs j, elifLoopF fuel ts i = .ok (cs, j) → allowedPairsB cs = true) ∧
  (∀ ts i r j, blockF fuel ts i = .ok (r, j) → allowedB r = true) ∧
  (∀ ts i r j, func_definitionF fuel ts i = .ok (r, j) → allowedB r = true) ∧
  (∀ ts i r j, return_statementF fuel ts i = .ok (r, j) → allowedB r = true) ∧
  (∀ ts i r j, save_statementF fuel ts i = .ok (r, j) → allowedB r = true) ∧
  (∀ ts i r j, sleep_statementF fuel ts i = .ok (r, j) → allowedB r = true) ∧
  (∀ ts i r j, expressionF fuel ts i = .ok (r, j) → allowedB r = true) ∧
  (∀ lvl ts i r j, levelF fuel lvl ts i = .ok (r, j) → allowedB r = true) ∧
  (∀ lvl ts i r j, subLevelF fuel lvl ts i = .ok (r, j) → allowedB r = true) ∧
  (∀ lvl left ts i r j, allowedB left = true → binLoopF fuel lvl left ts i = .ok (r, j) →
    allowedB r = true) ∧
  (∀ ts i r j, unaryF fuel ts i = .ok (r, j) → allowedB r = true) ∧
  (∀ ts i r j, atomF fuel ts i = .ok (r, j) → allowedB r = true)

/-- A token sequence the lexer can never produce (an end-of-input token in
the middle): 🌱 🌳 EOF 🌳 1 EOF. -/
def junkToks : List Token :=
  [⟨.PROGRAM_START, .vstr "🌱"⟩, ⟨.PROGRAM_END, .vstr "🌳"⟩, ⟨.EOF, .vnone⟩,
   ⟨.PROGRAM_END, .vstr "🌳"⟩, ⟨.LIT_INT, .vint 1⟩, ⟨.EOF, .vnone⟩]

/-! ## Helper lemmas -/

theorem pyEq_vint_zero (r : Value) (hr : isNumV r = true) :
    pyEq r (.vint 0) = true ↔ toQ r = 0 := by
  cases r <;> simp_all [pyEq, isNumV, toQ, bInt]

theorem alGet_alSet_self {α : Type} (e : List (String × α)) (k : String) (v : α) :
    alGet (alSet e k v) k = some v := by
  induction e with
  | nil => simp [alSet, alGet]
  | cons p rest ih =>
    obtain ⟨a, b⟩ := p
    by_cases h : a = k <;> simp [alSet, alGet, h, ih]

theorem alGet_alSet_ne {α : Type} (e : List (String × α)) (k k' : String) (v : α)
    (h : k' ≠ k) : alGet (alSet e k v) k' = alGet e k' := by
  induction e with
  | nil => simp [alSet, alGet, Ne.symm h]
  | cons p rest ih =>
    obtain ⟨a, b⟩ := p
    by_cases ha : a = k
    · subst ha
      simp [alSet, alGet, Ne.symm h]
    · simp only [alSet, if_neg ha, alGet]
      by_cases hb : a = k' <;> simp [hb, ih]

theorem alContains_alSet {α : Type} (e : List (String × α)) (k k' : String) (v : α) :
    alContains (alSet e k v) k' = true ↔ (k' = k ∨ alContains e k' = true) := by
  by_cases h : k' = k
  · subst h
    simp [alContains, alGet_alSet_self]
  · simp [alContains, alGet_alSet_ne e k k' v h, h]

theorem alContains_foldl_alSet (l : List (String × Value)) (e : Env) (k : String)
    (h : alContains e k = true) :
    alContains (l.foldl (fun e p => alSet e p.1 p.2) e) k = true := by
  induction l generalizing e with
  | nil => simpa using h
  | cons p rest ih =>
    simpa using ih (alSet e p.1 p.2) ((alContains_alSet e p.1 k p.2).mpr (Or.inr h))

/-! ## C3: division by zero -/

/-- C3: for evaluated numeric operands, the ➗ operation raises the
division-by-zero `RuntimeError` (message `"Divisão por zero."` in the
source) exactly when the right operand equals zero — integer and real zero
alike — and otherwise returns the exact quotient; in particular `5 / 0`
raises and `5 / 2` evaluates to `2.5`. -/
theorem c3_division_by_zero :
    (∀ l r : Value, isNumV l = true → isNumV r = true →
      (toQ r = 0 → binOpEval .OP_DIV l r = .error (.rte "Divisão por zero.")) ∧
      (toQ r ≠ 0 → binOpEval .OP_DIV l r = .ok (.vreal (toQ l / toQ r)))) ∧
    binOpEval .OP_DIV (.vint 5) (.vint 0) = .error (.rte "Divisão por zero.") ∧
    binOpEval .OP_DIV (.vint 5) (.vreal 0) = .error (.rte "Divisão por zero.") ∧
    binOpEval .OP_DIV (.vint 5) (.vint 2) = .ok (.vreal 2.5) := by
  refine ⟨?_, rfl, rfl, ?_⟩
  · intro l r hl hr
    constructor
    · intro h0
      have hz : pyEq r (.vint 0) = true := (pyEq_vint_zero r hr).mpr h0
      simp [binOpEval, hz]
    · intro h0
      have hz : pyEq r (.vint 0) = false := by
        rcases h : pyEq r (.vint 0) with _ | _
        · rfl
        · exact absurd ((pyEq_vint_zero r hr).mp h) h0
      simp [binOpEval, hz, pyDiv, hl, hr]
  · rw [show (2.5 : ℚ) = 5 / 2 by norm_num]
    rfl

/-- C3 witness. -/
theorem c3_division_by_zero_witness :
    binOpEval .OP_DIV (.vreal 3) (.vint 4) = .ok (.vreal ((3 : ℚ) / (4 : ℚ))) := by
  have h := (c3_division_by_zero.1 (.vreal 3) (.vint 4) rfl rfl).2 (by norm_num [toQ])
  simpa [toQ] using h

/-! ## C2: the polymorphic ➕ -/

/-- C2 counterexample: two evaluated operands, neither of which is text, on
which ➕ neither errors nor produces any numeric value: two lists are
concatenated (host list `+`), so the "numeric sum otherwise" clause is
false as universally stated. -/
theorem c2_counterexample :
    binOpEval .OP_PLUS (.vlist [.vint 1]) (.vlist [.vint 2])
        = .ok (.vlist [.vint 1, .vint 2]) ∧
    isStrV (.vlist [.vint 1]) = false ∧ isStrV (.vlist [.vint 2]) = false ∧
    isNumV (.vlist [.vint 1, .vint 2]) = false :=
  ⟨rfl, rfl, rfl, rfl⟩

/-- C2 (amended): when at least one operand is text, ➕ returns the
concatenation of both operands' textual representations; when both operands
are numeric, it returns their numeric sum; (for two lists — the case the
original claim's "otherwise" missed — it returns the list concatenation);
in particular `2 + 3` evaluates to `5` and `"a" + 1` evaluates to `"a1"`. -/
theorem c2_plus_polymorphic :
    (∀ l r : Value, (isStrV l || isStrV r) = true →
      binOpEval .OP_PLUS l r = .ok (.vstr (pyStr l ++ pyStr r))) ∧
    (∀ l r : Value, isNumV l = true → isNumV r = true →
      ∃ v : Value, binOpEval .OP_PLUS l r = .ok v ∧ isNumV v = true ∧
        toQ v = toQ l + toQ r) ∧
    (∀ a b : List Value, binOpEval .OP_PLUS (.vlist a) (.vlist b) = .ok (.vlist (a ++ b))) ∧
    (∀ s : St, visit 5 (.binOp (.number ⟨.LIT_INT, .vint 2⟩) ⟨.OP_PLUS, .vstr "➕"⟩
      (.number ⟨.LIT_INT, .vint 3⟩)) s = .ok (.vint 5) s) ∧
    (∀ s : St, visit 5 (.binOp (.strNode ⟨.LIT_STRING, .vstr "a"⟩) ⟨.OP_PLUS, .vstr "➕"⟩
      (.number ⟨.LIT_INT, .vint 1⟩)) s = .ok (.vstr "a1") s) := by
  refine ⟨?_, ?_, ?_, fun _ => rfl, fun _ => rfl⟩
  · intro l r h
    simp [binOpEval, h]
  · intro l r hl hr
    cases l <;> simp only [isNumV] at hl <;> cases r <;> simp only [isNumV] at hr <;>
      first
        | exact absurd hl (by decide)
        | exact absurd hr (by decide)
        | exact ⟨_, rfl, rfl, by simp [toQ, bInt, binOpEval, pyAdd]⟩
  · intro a b
    rfl

/-- C2 witness. -/
theorem c2_plus_polymorphic_witness :
    binOpEval .OP_PLUS (.vstr "a") (.vint 1) = .ok (.vstr (pyStr (.vstr "a") ++ pyStr (.vint 1))) ∧
    ∃ v : Value, binOpEval .OP_PLUS (.vint 2) (.vint 3) = .ok v ∧ isNumV v = true ∧
      toQ v = toQ (.vint 2) + toQ (.vint 3) :=
  ⟨c2_plus_polymorphic.1 (.vstr "a") (.vint 1) rfl,
   c2_plus_polymorphic.2.1 (.vint 2) (.vint 3) rfl rfl⟩

/-! ## C4: arity check before argument evaluation -/

/-- C4: a function call whose argument count differs from the stored
definition's parameter count raises a `RuntimeError` naming the expected
and the given counts, and it does so before evaluating any argument — the
returned state is exactly the entry state, so no argument side effect has
occurred. -/
theorem c4_arity_mismatch (fuel : Nat) (s : St) (ftok fnt : Token)
    (arg_name_tokens : List Token) (body_node : Node) (arg_nodes : List Node)
    (hlook : alGet s.env (tokName ftok) = some (.vfunc fnt arg_name_tokens body_node))
    (hne : arg_name_tokens.length ≠ arg_nodes.length) :
    visit (fuel + 1) (.funcCall (.varAccess ftok) arg_nodes) s =
      .err (.rte ("Função '" ++ tokName ftok ++ "' espera "
        ++ toString arg_name_tokens.length ++ " argumentos, mas recebeu "
        ++ toString arg_nodes.length ++ ".")) s := by
  simp only [visit, hlook]
  rw [if_pos hne]

/-- C4 witness: a 2-parameter function called with 1 argument reports
expected 2, given 1, leaving the state untouched. -/
theorem c4_arity_mismatch_witness :
    visit 1 (.funcCall (.varAccess ⟨.IDENTIFIER, .vstr "f"⟩) [.number ⟨.LIT_INT, .vint 7⟩])
        ⟨[("f", .vfunc ⟨.IDENTIFIER, .vstr "f"⟩ [⟨.IDENTIFIER, .vstr "a"⟩, ⟨.IDENTIFIER, .vstr "b"⟩]
          (.block []))], [], [], []⟩ =
      .err (.rte "Função 'f' espera 2 argumentos, mas recebeu 1.")
        ⟨[("f", .vfunc ⟨.IDENTIFIER, .vstr "f"⟩ [⟨.IDENTIFIER, .vstr "a"⟩, ⟨.IDENTIFIER, .vstr "b"⟩]
          (.block []))], [], [], []⟩ :=
  c4_arity_mismatch 0
    ⟨[("f", .vfunc ⟨.IDENTIFIER, .vstr "f"⟩ [⟨.IDENTIFIER, .vstr "a"⟩, ⟨.IDENTIFIER, .vstr "b"⟩]
      (.block []))], [], [], []⟩
    ⟨.IDENTIFIER, .vstr "f"⟩ ⟨.IDENTIFIER, .vstr "f"⟩
    [⟨.IDENTIFIER, .vstr "a"⟩, ⟨.IDENTIFIER, .vstr "b"⟩] (.block [])
    [.number ⟨.LIT_INT, .vint 7⟩] rfl (by decide)

/-! ## C6: numeric literals truncate at a second decimal point -/

theorem curChar_eq_get (text : List Char) (pos : Nat) (h : pos < text.length) :
    curChar text pos = some (text.get ⟨pos, h⟩) := by
  simp [curChar, List.get?_eq_get h]

theorem numLoop_spec (text : List Char) (pos : Nat) (numStr : List Char) (dotCount : Nat) :
    dotCount ≤ 1 → numStr.count '.' = dotCount →
    (∀ c ∈ numStr, c.isDigit = true ∨ c = '.') →
    pos ≤ (numLoop text pos numStr dotCount).2.2 ∧
    (numLoop text pos numStr dotCount).2.1 ≤ 1 ∧
    (numLoop text pos numStr dotCount).1.count '.' = (numLoop text pos numStr dotCount).2.1 ∧
    (∀ c ∈ (numLoop text pos numStr dotCount).1, c.isDigit = true ∨ c = '.') ∧
    (∀ c, curChar text (numLoop text pos numStr dotCount).2.2 = some c →
      (c.isDigit || c = '.') = true → c = '.' ∧ (numLoop text pos numStr dotCount).2.1 = 1) := by
  induction pos, numStr, dotCount using numLoop.induct text with
  | case1 pos numStr dotCount h c hcd hbreak =>
    -- the character matches the loop condition but is a second dot: break
    intro hdc hcnt hchars
    rw [numLoop]
    simp only [dif_pos h, if_pos hcd, if_pos hbreak]
    refine ⟨le_rfl, hdc, hcnt, hchars, fun c' hc' _ => ?_⟩
    rw [curChar_eq_get text pos h] at hc'
    obtain rfl : text.get ⟨pos, h⟩ = c' := by simpa using hc'
    exact ⟨hbreak.1, hbreak.2⟩
  | case2 pos numStr dotCount h c hcd hbreak ih =>
    -- consume the character and continue
    intro hdc hcnt hchars
    have hunfold : numLoop text pos numStr dotCount =
        numLoop text (pos + 1) (numStr ++ [c]) (if c = '.' then dotCount + 1 else dotCount) := by
      rw [numLoop]
      simp only [dif_pos h, if_pos hcd, if_neg hbreak]
    rw [hunfold]
    simp only [dite_eq_ite] at ih
    have hdc' : (if c = '.' then dotCount + 1 else dotCount) ≤ 1 := by
      by_cases hcc : c = '.'
      · simp only [if_pos hcc]
        rcases Nat.lt_or_ge dotCount 1 with hlt | hge
        · omega
        · exact absurd ⟨hcc, by omega⟩ hbreak
      · simpa [hcc] using hdc
    have hcnt' : (numStr ++ [c]).count '.' = (if c = '.' then dotCount + 1 else dotCount) := by
      by_cases hcc : c = '.' <;> simp [List.count_append, List.count_cons, hcc, hcnt]
    have hchars' : ∀ c' ∈ numStr ++ [c], c'.isDigit = true ∨ c' = '.' := by
      intro c' hc'
      rcases List.mem_append.mp hc' with hm | hm
      · exact hchars c' hm
      · obtain rfl : c' = c := by simpa using hm
        simpa using Bool.or_eq_true_iff.mp hcd
    obtain ⟨h1, h2, h3, h4, h5⟩ := ih hdc' hcnt' hchars'
    exact ⟨by omega, h2, h3, h4, h5⟩
  | case3 pos numStr dotCount h c hcd =>
    intro hdc hcnt hchars
    rw [numLoop]
    simp only [dif_pos h, if_neg hcd]
    refine ⟨le_rfl, hdc, hcnt, hchars, fun c' hc' hcond => ?_⟩
    rw [curChar_eq_get text pos h] at hc'
    obtain rfl : text.get ⟨pos, h⟩ = c' := by simpa using hc'
    exact absurd hcond hcd
  | case4 pos numStr dotCount h =>
    intro hdc hcnt hchars
    rw [numLoop]
    simp only [dif_neg h]
    refine ⟨le_rfl, hdc, hcnt, hchars, fun c' hc' _ => ?_⟩
    exact absurd (lt_of_curChar_some hc') h

/-- C6: starting a numeric literal at a digit, the lexer accumulates only
digits and at most one decimal point; when it meets a second decimal point
it stops there, returning the number scanned so far as a real-literal token
and leaving the second dot unconsumed; `make_number` is total — no path of
the literal scan raises a `LexError` (its result type has no error
outcome).  On `"1.2.3"` the scan yields the real `1.2` and stops at index
3, the second dot. -/
theorem c6_second_dot_truncates :
    (∀ (text : List Char) (pos : Nat) (c0 : Char),
      curChar text pos = some c0 → c0.isDigit = true →
      ((make_number text pos).1.ttype = .LIT_INT ∨ (make_number text pos).1.ttype = .LIT_REAL) ∧
      pos < (make_number text pos).2 ∧
      (∀ c ∈ (numLoop text pos [] 0).1, c.isDigit = true ∨ c = '.') ∧
      (numLoop text pos [] 0).1.count '.' ≤ 1 ∧
      (∀ c, curChar text (make_number text pos).2 = some c → c = '.' →
        (make_number text pos).1.ttype = .LIT_REAL)) ∧
    make_number "1.2.3".data 0 = (⟨.LIT_REAL, .vreal 1.2⟩, 3) ∧
    curChar "1.2.3".data 3 = some '.' := by
  refine ⟨?_, ?_, by simp [curChar]⟩
  · intro text pos c0 hcur hdig
    obtain ⟨hle, hdots, hcount, hchars, hstop⟩ :=
      numLoop_spec text pos [] 0 (by omega) rfl (by simp)
    have hmk2 : (make_number text pos).2 = (numLoop text pos [] 0).2.2 := by
      simp only [make_number]
      split <;> rfl
    have hmkty : (numLoop text pos [] 0).2.1 = 1 →
        (make_number text pos).1.ttype = .LIT_REAL := by
      intro h
      simp [make_number, h]
    have hlt0 : pos < text.length := lt_of_curChar_some hcur
    have hc0 : c0 = text.get ⟨pos, hlt0⟩ := by
      have := curChar_eq_get text pos hlt0
      rw [hcur] at this
      simpa using this
    subst hc0
    simp only [List.get_eq_getElem] at hdig
    have hstep : numLoop text pos [] 0 = numLoop text (pos + 1) [text[pos]]
        (if (text[pos] : Char) = '.' then 1 else 0) := by
      rw [numLoop]
      simp [dif_pos hlt0, hdig]
    have hlt : pos < (numLoop text pos [] 0).2.2 := by
      have h2 := (numLoop_spec text (pos + 1) [(text[pos] : Char)]
        (if (text[pos] : Char) = '.' then 1 else 0)
        (by split <;> omega)
        (by by_cases h : (text[pos] : Char) = '.' <;> simp [List.count_cons, h])
        (by intro c hc; simp at hc; subst hc; exact Or.inl hdig)).1
      rw [hstep]
      omega
    refine ⟨?_, hmk2 ▸ hlt, hchars, hcount ▸ hdots, ?_⟩
    · by_cases h : (numLoop text pos [] 0).2.1 = 0 <;> simp [make_number, h]
    · intro c hc hcdot
      rw [hmk2] at hc
      exact hmkty (hstop c hc (by simp [hcdot])).2
  · rw [show (1.2 : ℚ) = 6 / 5 from by norm_num]
    simp [make_number, numLoop, curChar, parseRealChars, parseIntDigits, Fin.isValue, List.get]
    norm_num

/-- C6 witness. -/
theorem c6_second_dot_truncates_witness :
    ((make_number "1.2.3".data 0).1.ttype = .LIT_INT ∨
      (make_number "1.2.3".data 0).1.ttype = .LIT_REAL) ∧
    0 < (make_number "1.2.3".data 0).2 ∧
    (∀ c ∈ (numLoop "1.2.3".data 0 [] 0).1, c.isDigit = true ∨ c = '.') ∧
    (numLoop "1.2.3".data 0 [] 0).1.count '.' ≤ 1 ∧
    (∀ c, curChar "1.2.3".data (make_number "1.2.3".data 0).2 = some c → c = '.' →
      (make_number "1.2.3".data 0).1.ttype = .LIT_REAL) :=
  c6_second_dot_truncates.1 "1.2.3".data 0 '1' rfl rfl

/-! ## C7: each precedence level folds into a left-associative chain -/

theorem curTok_of_drop {ts : List Token} {i : Nat} {x : Token} {l : List Token}
    (h : ts.drop i = x :: l) : curTok ts i = x := by
  have hlt : i < ts.length := by
    by_contra hge
    rw [List.drop_eq_nil_iff_le.mpr (by omega)] at h
    exact List.noConfusion h
  have := List.drop_eq_get_cons (l := ts) hlt
  rw [h] at this
  rw [curTok, dif_pos hlt]
  exact (List.cons.injEq _ _ _ _ ▸ this).1.symm

theorem drop_succ_of_drop {ts : List Token} {i : Nat} {x : Token} {l : List Token}
    (h : ts.drop i = x :: l) : ts.drop (i + 1) = l := by
  have h2 : ts.drop (i + 1) = (ts.drop i).drop 1 := by
    rw [List.drop_drop]
  rw [h2, h]
  rfl

/-- A single integer-literal operand parses at any level to its
`NumberNode`, consuming one token, when the following token does not
continue a strictly lower level. -/
theorem subLevelF_single (lvl : Lvl) (fuel : Nat) (ts : List Token) (i : Nat) (tok : Token)
    (hfuel : 8 ≤ fuel) (hcur : curTok ts i = tok) (hty : tok.ttype = .LIT_INT)
    (hnext : (curTok ts (i + 1)).ttype ∉ strictBelow lvl) :
    subLevelF fuel lvl ts i = .ok (.number tok, i + 1) := by
  have hatom : ∀ g, 1 ≤ g → atomF g ts i = .ok (.number tok, i + 1) := by
    intro g hg
    obtain ⟨g', rfl⟩ : ∃ g', g = g' + 1 := ⟨g - 1, by omega⟩
    simp only [atomF, hcur, hty]
    simp [eat, hcur, hty]
  have hunary : ∀ g, 2 ≤ g → unaryF g ts i = .ok (.number tok, i + 1) := by
    intro g hg
    obtain ⟨g', rfl⟩ : ∃ g', g = g' + 1 := ⟨g - 1, by omega⟩
    simp only [unaryF]
    rw [if_neg (by rw [hcur, hty]; intro hcontra; cases hcontra)]
    exact hatom g' (by omega)
  have hfac : ∀ g, 3 ≤ g → subLevelF g .factor ts i = .ok (.number tok, i + 1) := by
    intro g hg
    obtain ⟨g', rfl⟩ : ∃ g', g = g' + 1 := ⟨g - 1, by omega⟩
    simp only [subLevelF]
    exact hunary g' (by omega)
  have hloopstop : ∀ g lv, 1 ≤ g → (curTok ts (i + 1)).ttype ∉ lvlOps lv →
      binLoopF g lv (.number tok) ts (i + 1) = .ok (.number tok, i + 1) := by
    intro g lv hg hnotin
    obtain ⟨g', rfl⟩ : ∃ g', g = g' + 1 := ⟨g - 1, by omega⟩
    simp only [binLoopF, if_neg hnotin]
  have hlevfac : ∀ g, 5 ≤ g → (curTok ts (i + 1)).ttype ∉ lvlOps .factor →
      levelF g .factor ts i = .ok (.number tok, i + 1) := by
    intro g hg hnf
    obtain ⟨g', rfl⟩ : ∃ g', g = g' + 1 := ⟨g - 1, by omega⟩
    simp only [levelF]
    rw [hfac g' (by omega)]
    exact hloopstop g' .factor (by omega) hnf
  have hterm : ∀ g, 6 ≤ g → (curTok ts (i + 1)).ttype ∉ lvlOps .factor →
      subLevelF g .term ts i = .ok (.number tok, i + 1) := by
    intro g hg hnf
    obtain ⟨g', rfl⟩ : ∃ g', g = g' + 1 := ⟨g - 1, by omega⟩
    simp only [subLevelF]
    exact hlevfac g' (by omega) hnf
  match lvl with
  | .factor => exact hfac fuel (by omega)
  | .term =>
    exact hterm fuel (by omega) (by simpa [strictBelow] using hnext)
  | .comparison =>
    obtain ⟨f', rfl⟩ : ∃ f', fuel = f' + 1 := ⟨fuel - 1, by omega⟩
    simp only [subLevelF]
    obtain ⟨f'', rfl⟩ : ∃ f'', f' = f'' + 1 := ⟨f' - 1, by omega⟩
    simp only [levelF]
    have hnf : (curTok ts (i + 1)).ttype ∉ lvlOps .factor := by
      intro hmem
      exact hnext (by simp [strictBelow, lvlOps] at hmem ⊢; tauto)
    have hnt : (curTok ts (i + 1)).ttype ∉ lvlOps .term := by
      intro hmem
      exact hnext (by simp [strictBelow, lvlOps] at hmem ⊢; tauto)
    rw [hterm f'' (by omega) hnf]
    exact hloopstop f'' .term (by omega) hnt

theorem lvlOps_strictBelow_disjoint (lvl : Lvl) (t : TokType)
    (h : t ∈ lvlOps lvl) : t ∉ strictBelow lvl := by
  intro hb
  cases lvl <;> cases t <;> simp [lvlOps, strictBelow] at h hb

theorem eof_notin_lvl (lvl : Lvl) : TokType.EOF ∉ lvlOps lvl := by
  cases lvl <;> simp [lvlOps]

theorem eof_notin_strictBelow (lvl : Lvl) : TokType.EOF ∉ strictBelow lvl := by
  cases lvl <;> simp [strictBelow, lvlOps]

/-- The `binary_operation` while-loop folds an operator/operand chain of a
single level leftward. -/
theorem binLoopF_chain (rest : List (Token × Token)) :
    ∀ (lvl : Lvl) (fuel : Nat) (ts : List Token) (i : Nat) (acc : Node),
    (∀ p ∈ rest, (p.1).ttype ∈ lvlOps lvl ∧ (p.2).ttype = .LIT_INT) →
    ts.drop i = (rest.bind fun p => [p.1, p.2]) ++ [dTok] →
    9 * rest.length + 1 ≤ fuel →
    binLoopF fuel lvl acc ts i =
      .ok (rest.foldl (fun acc p => .binOp acc p.1 (.number p.2)) acc, i + 2 * rest.length) := by
  induction rest with
  | nil =>
    intro lvl fuel ts i acc _ hdrop hfuel
    obtain ⟨f, rfl⟩ : ∃ f, fuel = f + 1 := ⟨fuel - 1, by omega⟩
    have hcur : curTok ts i = dTok := curTok_of_drop (by simpa using hdrop)
    simp only [binLoopF, hcur]
    rw [if_neg (by simpa [dTok] using eof_notin_lvl lvl)]
    simp
  | cons p rest' ih =>
    intro lvl fuel ts i acc hops hdrop hfuel
    obtain ⟨op, lit⟩ := p
    obtain ⟨f, rfl⟩ : ∃ f, fuel = f + 1 := ⟨fuel - 1, by omega⟩
    simp only [List.cons_bind, List.cons_append] at hdrop
    have hcur : curTok ts i = op := curTok_of_drop (by simpa using hdrop)
    have hopin : op.ttype ∈ lvlOps lvl := (hops (op, lit) (by simp)).1
    have hlit : lit.ttype = .LIT_INT := (hops (op, lit) (by simp)).2
    have hdrop1 : ts.drop (i + 1) = lit :: ((rest'.bind fun p => [p.1, p.2]) ++ [dTok]) := by
      have := drop_succ_of_drop (x := op)
        (l := lit :: ((rest'.bind fun p => [p.1, p.2]) ++ [dTok])) (by simpa using hdrop)
      simpa using this
    have hcur1 : curTok ts (i + 1) = lit := curTok_of_drop hdrop1
    have hdrop2 : ts.drop (i + 1 + 1) = (rest'.bind fun p => [p.1, p.2]) ++ [dTok] :=
      drop_succ_of_drop hdrop1
    have hnext2 : (curTok ts (i + 1 + 1)).ttype ∉ strictBelow lvl := by
      match hr : rest' with
      | [] =>
        have hd : curTok ts (i + 1 + 1) = dTok := curTok_of_drop (by simpa [hr] using hdrop2)
        rw [hd]
        exact eof_notin_strictBelow lvl
      | (op', lit') :: r'' =>
        have hd : curTok ts (i + 1 + 1) = op' := curTok_of_drop (by simpa [hr] using hdrop2)
        rw [hd]
        exact lvlOps_strictBelow_disjoint lvl _ ((hops (op', lit') (by simp [hr]))).1
    simp only [List.length_cons] at hfuel
    simp only [binLoopF, hcur, if_pos hopin,
      show eat ts i op.ttype = .ok ((), i + 1) from by simp [eat, hcur],
      subLevelF_single lvl f ts (i + 1) lit (by omega) hcur1 hlit hnext2]
    rw [ih lvl f ts (i + 1 + 1) (.binOp acc op (.number lit))
      (fun q hq => hops q (by simp [hq])) hdrop2 (by omega)]
    simp only [Except.ok.injEq, Prod.mk.injEq, List.foldl_cons, List.length_cons]
    exact ⟨trivial, by omega⟩

/-- C7: for a token sequence `operand op operand … op operand` whose
operators all belong to one precedence level, the parser's
`binary_operation` scheme — parse one operand at the next-higher level,
then, while the current token is a valid operator of this level, consume
it, parse the right operand, and fold leftward — produces the
left-associative `BinOpNode` chain; in particular the tokens of `a − b − c`
parse to `BinaryOp(BinaryOp(a, −, b), −, c)`. -/
theorem c7_left_associative_chain :
    (∀ (lvl : Lvl) (first : Token) (rest : List (Token × Token)) (fuel : Nat),
      first.ttype = .LIT_INT →
      (∀ p ∈ rest, (p.1).ttype ∈ lvlOps lvl ∧ (p.2).ttype = .LIT_INT) →
      9 * rest.length + 10 ≤ fuel →
      levelF fuel lvl (chainToks first rest) 0 =
        .ok (chainFold first rest, 2 * rest.length + 1)) ∧
    levelF 30 .term [⟨.IDENTIFIER, .vstr "a"⟩, ⟨.OP_MINUS, .vstr "➖"⟩,
        ⟨.IDENTIFIER, .vstr "b"⟩, ⟨.OP_MINUS, .vstr "➖"⟩, ⟨.IDENTIFIER, .vstr "c"⟩,
        ⟨.EOF, .vnone⟩] 0 =
      .ok (.binOp (.binOp (.varAccess ⟨.IDENTIFIER, .vstr "a"⟩) ⟨.OP_MINUS, .vstr "➖"⟩
          (.varAccess ⟨.IDENTIFIER, .vstr "b"⟩)) ⟨.OP_MINUS, .vstr "➖"⟩
          (.varAccess ⟨.IDENTIFIER, .vstr "c"⟩), 5) := by
  constructor
  · intro lvl first rest fuel hfirst hops hfuel
    obtain ⟨f, rfl⟩ : ∃ f, fuel = f + 1 := ⟨fuel - 1, by omega⟩
    have hdrop0 : (chainToks first rest).drop 0 =
        first :: ((rest.bind fun p => [p.1, p.2]) ++ [dTok]) := by
      simp [chainToks]
    have hcur0 : curTok (chainToks first rest) 0 = first := curTok_of_drop hdrop0
    have hdrop1 : (chainToks first rest).drop 1 =
        (rest.bind fun p => [p.1, p.2]) ++ [dTok] := by
      simpa using drop_succ_of_drop hdrop0
    have hnext : (curTok (chainToks first rest) (0 + 1)).ttype ∉ strictBelow lvl := by
      rcases rest with _ | ⟨⟨op', lit'⟩, r''⟩
      · have hd : curTok (chainToks first []) (0 + 1) = dTok :=
          curTok_of_drop (l := []) (by simpa using hdrop1)
        rw [hd]
        exact eof_notin_strictBelow lvl
      · have hd : curTok (chainToks first ((op', lit') :: r'')) (0 + 1) = op' :=
          curTok_of_drop (l := lit' :: ((r''.bind fun p => [p.1, p.2]) ++ [dTok]))
            (by simpa using hdrop1)
        rw [hd]
        exact lvlOps_strictBelow_disjoint lvl _ ((hops (op', lit') (by simp))).1
    simp only [levelF,
      subLevelF_single lvl f (chainToks first rest) 0 first (by omega) hcur0 hfirst hnext]
    rw [binLoopF_chain rest lvl f (chainToks first rest) (0 + 1) (.number first) hops
      (by simpa using hdrop1) (by omega)]
    simp only [Except.ok.injEq, Prod.mk.injEq, chainFold]
    exact ⟨trivial, by omega⟩
  · rfl

/-- C7 witness. -/
theorem c7_left_associative_chain_witness :
    levelF 30 .term (chainToks ⟨.LIT_INT, .vint 1⟩
        [(⟨.OP_MINUS, .vstr "➖"⟩, ⟨.LIT_INT, .vint 2⟩),
         (⟨.OP_MINUS, .vstr "➖"⟩, ⟨.LIT_INT, .vint 3⟩)]) 0 =
      .ok (chainFold ⟨.LIT_INT, .vint 1⟩
        [(⟨.OP_MINUS, .vstr "➖"⟩, ⟨.LIT_INT, .vint 2⟩),
         (⟨.OP_MINUS, .vstr "➖"⟩, ⟨.LIT_INT, .vint 3⟩)], 5) :=
  c7_left_associative_chain.1 .term ⟨.LIT_INT, .vint 1⟩
    [(⟨.OP_MINUS, .vstr "➖"⟩, ⟨.LIT_INT, .vint 2⟩),
     (⟨.OP_MINUS, .vstr "➖"⟩, ⟨.LIT_INT, .vint 3⟩)] 30 rfl
    (by intro p hp; simp at hp; rcases hp with h | h <;> simp [h, lvlOps]) (by simp)

/-! ## C8: node kinds the parser can never emit -/

theorem read_statement_allowed {ts : List Token} {i : Nat} {r : Node} {j : Nat}
    (h : read_statement ts i = .ok (r, j)) : allowedB r = true := by
  simp only [read_statement] at h
  cases h1 : eat ts i .KEYWORD_READ with
  | error e => simp only [h1] at h; exact Except.noConfusion h
  | ok p =>
    obtain ⟨u, i1⟩ := p
    simp only [h1] at h
    cases h2 : eat ts i1 .IDENTIFIER with
    | error e => simp only [h2] at h; exact Except.noConfusion h
    | ok q =>
      obtain ⟨u2, i2⟩ := q
      simp only [h2] at h
      cases h3 : eat ts i2 .END_STATEMENT with
      | error e => simp only [h3] at h; exact Except.noConfusion h
      | ok w =>
        obtain ⟨u3, i3⟩ := w
        simp only [h3] at h
        simp only [Except.ok.injEq, Prod.mk.injEq] at h
        obtain ⟨rfl, rfl⟩ := h
        rfl

theorem import_statement_allowed {ts : List Token} {i : Nat} {r : Node} {j : Nat}
    (h : import_statement ts i = .ok (r, j)) : allowedB r = true := by
  simp only [import_statement] at h
  cases h1 : eat ts i .KEYWORD_IMPORT with
  | error e => simp only [h1] at h; exact Except.noConfusion h
  | ok p =>
    obtain ⟨u, i1⟩ := p
    simp only [h1] at h
    cases h2 : eat ts i1 .IDENTIFIER with
    | error e => simp only [h2] at h; exact Except.noConfusion h
    | ok q =>
      obtain ⟨u2, i2⟩ := q
      simp only [h2] at h
      cases h3 : eat ts i2 .END_STATEMENT with
      | error e => simp only [h3] at h; exact Except.noConfusion h
      | ok w =>
        obtain ⟨u3, i3⟩ := w
        simp only [h3] at h
        simp only [Except.ok.injEq, Prod.mk.injEq] at h
        obtain ⟨rfl, rfl⟩ := h
        rfl

set_option maxHeartbeats 1600000 in
/-- Fuel induction over the whole mutual parser: every successfully parsed
node satisfies `allowedB`. -/
theorem parserAllowed_all : ∀ fuel, parserAllowed fuel := by
  intro fuel
  induction fuel with
  | zero =>
    exact ⟨fun _ _ _ _ _ h => Except.noConfusion h,
      fun _ _ _ _ h => Except.noConfusion h,
      fun _ _ _ _ h => Except.noConfusion h,
      fun _ _ _ _ h => Except.noConfusion h,
      fun _ _ _ _ h => Except.noConfusion h,
      fun _ _ _ _ h => Except.noConfusion h,
      fun _ _ _ _ h => Except.noConfusion h,
      fun _ _ _ _ h => Except.noConfusion h,
      fun _ _ _ _ h => Except.noConfusion h,
      fun _ _ _ _ h => Except.noConfusion h,
      fun _ _ _ _ h => Except.noConfusion h,
      fun _ _ _ _ h => Except.noConfusion h,
      fun _ _ _ _ h => Except.noConfusion h,
      fun _ _ _ _ h => Except.noConfusion h,
      fun _ _ _ _ h => Except.noConfusion h,
      fun _ _ _ _ _ h => Except.noConfusion h,
      fun _ _ _ _ _ h => Except.noConfusion h,
      fun _ _ _ _ _ _ _ h => Except.noConfusion h,
      fun _ _ _ _ h => Except.noConfusion h,
      fun _ _ _ _ h => Except.noConfusion h⟩
  | succ f ih =>
    obtain ⟨ihSts, ihSt, ihPrint, ihVarDecl, ihVarAssign, ihApp, ihRem, ihIf, ihElif,
      ihBlock, ihFunc, ihRet, ihSave, ihSleep, ihExpr, ihLevel, ihSub, ihBin,
      ihUnary, ihAtom⟩ := ih
    refine ⟨?_, ?_, ?_, ?_, ?_, ?_, ?_, ?_, ?_, ?_, ?_, ?_, ?_, ?_, ?_, ?_, ?_, ?_, ?_, ?_⟩
    · intro ts endTT i rs j h
      simp only [statementsF] at h
      split at h
      · simp only [Except.ok.injEq, Prod.mk.injEq] at h
        obtain ⟨rfl, rfl⟩ := h
        rfl
      · cases h1 : statementF f ts i with
        | error e => simp only [h1] at h; exact Except.noConfusion h
        | ok p =>
          obtain ⟨st, i1⟩ := p
          simp only [h1] at h
          cases h2 : statementsF f ts endTT i1 with
          | error e => simp only [h2] at h; exact Except.noConfusion h
          | ok q =>
            obtain ⟨rest, i2⟩ := q
            simp only [h2] at h
            simp only [Except.ok.injEq, Prod.mk.injEq] at h
            obtain ⟨rfl, rfl⟩ := h
            have ha := ihSt _ _ _ _ h1
            have hb := ihSts _ _ _ _ _ h2
            simp [allowedListB, ha, hb]
    · intro ts i r j h
      simp only [statementF] at h
      by_cases c1 : (curTok ts i).ttype = .KEYWORD_PRINT
      · rw [if_pos c1] at h; exact ihPrint _ _ _ _ h
      rw [if_neg c1] at h
      by_cases c2 : (curTok ts i).ttype = .KEYWORD_READ
      · rw [if_pos c2] at h; exact read_statement_allowed h
      rw [if_neg c2] at h
      by_cases c3 : (curTok ts i).ttype = .KEYWORD_INT ∨ (curTok ts i).ttype = .KEYWORD_REAL ∨
          (curTok ts i).ttype = .KEYWORD_STRING ∨ (curTok ts i).ttype = .KEYWORD_LIST
      · rw [if_pos c3] at h; exact ihVarDecl _ _ _ _ h
      rw [if_neg c3] at h
      by_cases c4 : (curTok ts i).ttype = .KEYWORD_IF
      · rw [if_pos c4] at h; exact ihIf _ _ _ _ h
      rw [if_neg c4] at h
      by_cases c5 : (curTok ts i).ttype = .BLOCK_START
      · rw [if_pos c5] at h; exact ihBlock _ _ _ _ h
      rw [if_neg c5] at h
      by_cases c6 : (curTok ts i).ttype = .KEYWORD_FUN
      · rw [if_pos c6] at h; exact ihFunc _ _ _ _ h
      rw [if_neg c6] at h
      by_cases c7 : (curTok ts i).ttype = .KEYWORD_RETURN
      · rw [if_pos c7] at h; exact ihRet _ _ _ _ h
      rw [if_neg c7] at h
      by_cases c8 : (curTok ts i).ttype = .KEYWORD_IMPORT
      · rw [if_pos c8] at h; exact import_statement_allowed h
      rw [if_neg c8] at h
      by_cases c9 : (curTok ts i).ttype = .KEYWORD_SAVE
      · rw [if_pos c9] at h; exact ihSave _ _ _ _ h
      rw [if_neg c9] at h
      by_cases c10 : (curTok ts i).ttype = .KEYWORD_SLEEP
      · rw [if_pos c10] at h; exact ihSleep _ _ _ _ h
      rw [if_neg c10] at h
      by_cases c11 : (curTok ts i).ttype = .IDENTIFIER
      · rw [if_pos c11] at h
        cases hp : peekTok ts i with
        | none => simp only [hp] at h; exact Except.noConfusion h
        | some nxt =>
          simp only [hp] at h
          by_cases d1 : nxt.ttype = .ASSIGN
          · rw [if_pos d1] at h; exact ihVarAssign _ _ _ _ h
          rw [if_neg d1] at h
          by_cases d2 : nxt.ttype = .KEYWORD_APPEND
          · rw [if_pos d2] at h; exact ihApp _ _ _ _ h
          rw [if_neg d2] at h
          by_cases d3 : nxt.ttype = .KEYWORD_REMOVE
          · rw [if_pos d3] at h; exact ihRem _ _ _ _ h
          rw [if_neg d3] at h
          exact Except.noConfusion h
      · rw [if_neg c11] at h
        exact Except.noConfusion h
    · intro ts i r j h
      simp only [print_statementF] at h
      cases h1 : eat ts i .KEYWORD_PRINT with
      | error e => simp only [h1] at h; exact Except.noConfusion h
      | ok p =>
        obtain ⟨u, i1⟩ := p
        simp only [h1] at h
        cases h2 : expressionF f ts i1 with
        | error e => simp only [h2] at h; exact Except.noConfusion h
        | ok q =>
          obtain ⟨nd, i2⟩ := q
          simp only [h2] at h
          cases h3 : eat ts i2 .END_STATEMENT with
          | error e => simp only [h3] at h; exact Except.noConfusion h
          | ok w =>
            obtain ⟨u2, i3⟩ := w
            simp only [h3] at h
            simp only [Except.ok.injEq, Prod.mk.injEq] at h
            obtain ⟨rfl, rfl⟩ := h
            simpa only [allowedB] using ihExpr _ _ _ _ h2
    · intro ts i r j h
      simp only [var_declarationF] at h
      cases h1 : eat ts (i + 1) .IDENTIFIER with
      | error e => simp only [h1] at h; exact Except.noConfusion h
      | ok p =>
        obtain ⟨u, i1⟩ := p
        simp only [h1] at h
        split at h
        · cases h2 : eat ts i1 .ASSIGN with
          | error e => simp only [h2] at h; exact Except.noConfusion h
          | ok q =>
            obtain ⟨u2, i2⟩ := q
            simp only [h2] at h
            cases h3 : expressionF f ts i2 with
            | error e => simp only [h3] at h; exact Except.noConfusion h
            | ok w =>
              obtain ⟨vn, i3⟩ := w
              simp only [h3] at h
              cases h4 : eat ts i3 .END_STATEMENT with
              | error e => simp only [h4] at h; exact Except.noConfusion h
              | ok z =>
                obtain ⟨u3, i4⟩ := z
                simp only [h4] at h
                simp only [Except.ok.injEq, Prod.mk.injEq] at h
                obtain ⟨rfl, rfl⟩ := h
                simpa only [allowedB, allowedOptB] using ihExpr _ _ _ _ h3
        · cases h2 : eat ts i1 .END_STATEMENT with
          | error e => simp only [h2] at h; exact Except.noConfusion h
          | ok q =>
            obtain ⟨u2, i2⟩ := q
            simp only [h2] at h
            simp only [Except.ok.injEq, Prod.mk.injEq] at h
            obtain ⟨rfl, rfl⟩ := h
            rfl
    · intro ts i r j h
      simp only [var_assignmentF] at h
      cases h1 : eat ts i .IDENTIFIER with
      | error e => simp only [h1] at h; exact Except.noConfusion h
      | ok p =>
        obtain ⟨u, i1⟩ := p
        simp only [h1] at h
        cases h2 : eat ts i1 .ASSIGN with
        | error e => simp only [h2] at h; exact Except.noConfusion h
        | ok q =>
          obtain ⟨u2, i2⟩ := q
          simp only [h2] at h
          cases h3 : expressionF f ts i2 with
          | error e => simp only [h3] at h; exact Except.noConfusion h
          | ok w =>
            obtain ⟨nd, i3⟩ := w
            simp only [h3] at h
            cases h4 : eat ts i3 .END_STATEMENT with
            | error e => simp only [h4] at h; exact Except.noConfusion h
            | ok z =>
              obtain ⟨u3, i4⟩ := z
              simp only [h4] at h
              simp only [Except.ok.injEq, Prod.mk.injEq] at h
              obtain ⟨rfl, rfl⟩ := h
              simpa only [allowedB] using ihExpr _ _ _ _ h3
    · intro ts i r j h
      simp only [list_appendF] at h
      cases h1 : eat ts i .IDENTIFIER with
      | error e => simp only [h1] at h; exact Except.noConfusion h
      | ok p =>
        obtain ⟨u, i1⟩ := p
        simp only [h1] at h
        cases h2 : eat ts i1 .KEYWORD_APPEND with
        | error e => simp only [h2] at h; exact Except.noConfusion h
        | ok q =>
          obtain ⟨u2, i2⟩ := q
          simp only [h2] at h
          cases h3 : expressionF f ts i2 with
          | error e => simp only [h3] at h; exact Except.noConfusion h
          | ok w =>
            obtain ⟨nd, i3⟩ := w
            simp only [h3] at h
            cases h4 : eat ts i3 .END_STATEMENT with
            | error e => simp only [h4] at h; exact Except.noConfusion h
            | ok z =>
              obtain ⟨u3, i4⟩ := z
              simp only [h4] at h
              simp only [Except.ok.injEq, Prod.mk.injEq] at h
              obtain ⟨rfl, rfl⟩ := h
              simpa only [allowedB] using ihExpr _ _ _ _ h3
    · intro ts i r j h
      simp only [list_removeF] at h
      cases h1 : eat ts i .IDENTIFIER with
      | error e => simp only [h1] at h; exact Except.noConfusion h
      | ok p =>
        obtain ⟨u, i1⟩ := p
        simp only [h1] at h
        cases h2 : eat ts i1 .KEYWORD_REMOVE with
        | error e => simp only [h2] at h; exact Except.noConfusion h
        | ok q =>
          obtain ⟨u2, i2⟩ := q
          simp only [h2] at h
          cases h3 : expressionF f ts i2 with
          | error e => simp only [h3] at h; exact Except.noConfusion h
          | ok w =>
            obtain ⟨nd, i3⟩ := w
            simp only [h3] at h
            cases h4 : eat ts i3 .END_STATEMENT with
            | error e => simp only [h4] at h; exact Except.noConfusion h
            | ok z =>
              obtain ⟨u3, i4⟩ := z
              simp only [h4] at h
              simp only [Except.ok.injEq, Prod.mk.injEq] at h
              obtain ⟨rfl, rfl⟩ := h
              simpa only [allowedB] using ihExpr _ _ _ _ h3
    · intro ts i r j h
      simp only [if_statementF] at h
      cases h1 : eat ts i .KEYWORD_IF with
      | error e => simp only [h1] at h; exact Except.noConfusion h
      | ok p =>
        obtain ⟨u, i1⟩ := p
        simp only [h1] at h
        cases h2 : expressionF f ts i1 with
        | error e => simp only [h2] at h; exact Except.noConfusion h
        | ok q =>
          obtain ⟨cond, i2⟩ := q
          simp only [h2] at h
          cases h3 : blockF f ts i2 with
          | error e => simp only [h3] at h; exact Except.noConfusion h
          | ok w =>
            obtain ⟨body, i3⟩ := w
            simp only [h3] at h
            cases h4 : elifLoopF f ts i3 with
            | error e => simp only [h4] at h; exact Except.noConfusion h
            | ok z =>
              obtain ⟨more, i4⟩ := z
              simp only [h4] at h
              split at h
              · cases h5 : eat ts i4 .KEYWORD_ELSE with
                | error e => simp only [h5] at h; exact Except.noConfusion h
                | ok y =>
                  obtain ⟨u2, i5⟩ := y
                  simp only [h5] at h
                  cases h6 : blockF f ts i5 with
                  | error e => simp only [h6] at h; exact Except.noConfusion h
                  | ok x =>
                    obtain ⟨els, i6⟩ := x
                    simp only [h6] at h
                    simp only [Except.ok.injEq, Prod.mk.injEq] at h
                    obtain ⟨rfl, rfl⟩ := h
                    have ha := ihExpr _ _ _ _ h2
                    have hb := ihBlock _ _ _ _ h3
                    have hc := ihElif _ _ _ _ h4
                    have hd := ihBlock _ _ _ _ h6
                    simp [allowedB, allowedPairsB, allowedOptB, ha, hb, hc, hd]
              · simp only [Except.ok.injEq, Prod.mk.injEq] at h
                obtain ⟨rfl, rfl⟩ := h
                have ha := ihExpr _ _ _ _ h2
                have hb := ihBlock _ _ _ _ h3
                have hc := ihElif _ _ _ _ h4
                simp [allowedB, allowedPairsB, allowedOptB, ha, hb, hc]
    · intro ts i cs j h
      simp only [elifLoopF] at h
      split at h
      · cases h1 : eat ts i .KEYWORD_ELIF with
        | error e => simp only [h1] at h; exact Except.noConfusion h
        | ok p =>
          obtain ⟨u, i1⟩ := p
          simp only [h1] at h
          cases h2 : expressionF f ts i1 with
          | error e => simp only [h2] at h; exact Except.noConfusion h
          | ok q =>
            obtain ⟨cond, i2⟩ := q
            simp only [h2] at h
            cases h3 : blockF f ts i2 with
            | error e => simp only [h3] at h; exact Except.noConfusion h
            | ok w =>
              obtain ⟨body, i3⟩ := w
              simp only [h3] at h
              cases h4 : elifLoopF f ts i3 with
              | error e => simp only [h4] at h; exact Except.noConfusion h
              | ok z =>
                obtain ⟨rest, i4⟩ := z
                simp only [h4] at h
                simp only [Except.ok.injEq, Prod.mk.injEq] at h
                obtain ⟨rfl, rfl⟩ := h
                have ha := ihExpr _ _ _ _ h2
                have hb := ihBlock _ _ _ _ h3
                have hc := ihElif _ _ _ _ h4
                simp [allowedPairsB, ha, hb, hc]
      · simp only [Except.ok.injEq, Prod.mk.injEq] at h
        obtain ⟨rfl, rfl⟩ := h
        rfl
    · intro ts i r j h
      simp only [blockF] at h
      cases h1 : eat ts i .BLOCK_START with
      | error e => simp only [h1] at h; exact Except.noConfusion h
      | ok p =>
        obtain ⟨u, i1⟩ := p
        simp only [h1] at h
        cases h2 : statementsF f ts .BLOCK_END i1 with
        | error e => simp only [h2] at h; exact Except.noConfusion h
        | ok q =>
          obtain ⟨ss, i2⟩ := q
          simp only [h2] at h
          cases h3 : eat ts i2 .BLOCK_END with
          | error e => simp only [h3] at h; exact Except.noConfusion h
          | ok w =>
            obtain ⟨u2, i3⟩ := w
            simp only [h3] at h
            simp only [Except.ok.injEq, Prod.mk.injEq] at h
            obtain ⟨rfl, rfl⟩ := h
            simpa only [allowedB] using ihSts _ _ _ _ _ h2
    · intro ts i r j h
      simp only [func_definitionF] at h
      cases h1 : eat ts i .KEYWORD_FUN with
      | error e => simp only [h1] at h; exact Except.noConfusion h
      | ok p =>
        obtain ⟨u, i1⟩ := p
        simp only [h1] at h
        cases h2 : eat ts i1 .IDENTIFIER with
        | error e => simp only [h2] at h; exact Except.noConfusion h
        | ok q =>
          obtain ⟨u2, i2⟩ := q
          simp only [h2] at h
          cases h3 : argLoopF f ts i2 with
          | error e => simp only [h3] at h; exact Except.noConfusion h
          | ok w =>
            obtain ⟨args, i3⟩ := w
            simp only [h3] at h
            cases h4 : blockF f ts i3 with
            | error e => simp only [h4] at h; exact Except.noConfusion h
            | ok z =>
              obtain ⟨body, i4⟩ := z
              simp only [h4] at h
              simp only [Except.ok.injEq, Prod.mk.injEq] at h
              obtain ⟨rfl, rfl⟩ := h
              simpa only [allowedB] using ihBlock _ _ _ _ h4
    · intro ts i r j h
      simp only [return_statementF] at h
      cases h1 : eat ts i .KEYWORD_RETURN with
      | error e => simp only [h1] at h; exact Except.noConfusion h
      | ok p =>
        obtain ⟨u, i1⟩ := p
        simp only [h1] at h
        split at h
        · cases h2 : eat ts i1 .END_STATEMENT with
          | error e => simp only [h2] at h; exact Except.noConfusion h
          | ok q =>
            obtain ⟨u2, i2⟩ := q
            simp only [h2] at h
            simp only [Except.ok.injEq, Prod.mk.injEq] at h
            obtain ⟨rfl, rfl⟩ := h
            rfl
        · cases h2 : expressionF f ts i1 with
          | error e => simp only [h2] at h; exact Except.noConfusion h
          | ok q =>
            obtain ⟨nd, i2⟩ := q
            simp only [h2] at h
            cases h3 : eat ts i2 .END_STATEMENT with
            | error e => simp only [h3] at h; exact Except.noConfusion h
            | ok w =>
              obtain ⟨u2, i3⟩ := w
              simp only [h3] at h
              simp only [Except.ok.injEq, Prod.mk.injEq] at h
              obtain ⟨rfl, rfl⟩ := h
              simpa only [allowedB, allowedOptB] using ihExpr _ _ _ _ h2
    · intro ts i r j h
      simp only [save_statementF] at h
      cases h1 : eat ts i .KEYWORD_SAVE with
      | error e => simp only [h1] at h; exact Except.noConfusion h
      | ok p =>
        obtain ⟨u, i1⟩ := p
        simp only [h1] at h
        cases h2 : expressionF f ts i1 with
        | error e => simp only [h2] at h; exact Except.noConfusion h
        | ok q =>
          obtain ⟨d, i2⟩ := q
          simp only [h2] at h
          cases h3 : expressionF f ts i2 with
          | error e => simp only [h3] at h; exact Except.noConfusion h
          | ok w =>
            obtain ⟨fn, i3⟩ := w
            simp only [h3] at h
            cases h4 : eat ts i3 .END_STATEMENT with
            | error e => simp only [h4] at h; exact Except.noConfusion h
            | ok z =>
              obtain ⟨u2, i4⟩ := z
              simp only [h4] at h
              simp only [Except.ok.injEq, Prod.mk.injEq] at h
              obtain ⟨rfl, rfl⟩ := h
              have ha := ihExpr _ _ _ _ h2
              have hb := ihExpr _ _ _ _ h3
              simp [allowedB, ha, hb]
    · intro ts i r j h
      simp only [sleep_statementF] at h
      cases h1 : eat ts i .KEYWORD_SLEEP with
      | error e => simp only [h1] at h; exact Except.noConfusion h
      | ok p =>
        obtain ⟨u, i1⟩ := p
        simp only [h1] at h
        cases h2 : expressionF f ts i1 with
        | error e => simp only [h2] at h; exact Except.noConfusion h
        | ok q =>
          obtain ⟨nd, i2⟩ := q
          simp only [h2] at h
          cases h3 : eat ts i2 .END_STATEMENT with
          | error e => simp only [h3] at h; exact Except.noConfusion h
          | ok w =>
            obtain ⟨u2, i3⟩ := w
            simp only [h3] at h
            simp only [Except.ok.injEq, Prod.mk.injEq] at h
            obtain ⟨rfl, rfl⟩ := h
            simpa only [allowedB] using ihExpr _ _ _ _ h2
    · intro ts i r j h
      simp only [expressionF] at h
      exact ihLevel _ _ _ _ _ h
    · intro lvl ts i r j h
      simp only [levelF] at h
      cases h1 : subLevelF f lvl ts i with
      | error e => simp only [h1] at h; exact Except.noConfusion h
      | ok p =>
        obtain ⟨left, i1⟩ := p
        simp only [h1] at h
        exact ihBin _ _ _ _ _ _ (ihSub _ _ _ _ _ h1) h
    · intro lvl ts i r j h
      cases lvl <;> simp only [subLevelF] at h
      · exact ihLevel _ _ _ _ _ h
      · exact ihLevel _ _ _ _ _ h
      · exact ihUnary _ _ _ _ h
    · intro lvl left ts i r j hleft h
      simp only [binLoopF] at h
      split at h
      · cases h1 : eat ts i (curTok ts i).ttype with
        | error e => simp only [h1] at h; exact Except.noConfusion h
        | ok p =>
          obtain ⟨u, i1⟩ := p
          simp only [h1] at h
          cases h2 : subLevelF f lvl ts i1 with
          | error e => simp only [h2] at h; exact Except.noConfusion h
          | ok q =>
            obtain ⟨right, i2⟩ := q
            simp only [h2] at h
            have hr := ihSub _ _ _ _ _ h2
            exact ihBin _ _ _ _ _ _ (by simp [allowedB, hleft, hr]) h
      · simp only [Except.ok.injEq, Prod.mk.injEq] at h
        obtain ⟨rfl, rfl⟩ := h
        exact hleft
    · intro ts i r j h
      simp only [unaryF] at h
      split at h
      · cases h1 : eat ts i .LOGIC_NOT with
        | error e => simp only [h1] at h; exact Except.noConfusion h
        | ok p =>
          obtain ⟨u, i1⟩ := p
          simp only [h1] at h
          cases h2 : unaryF f ts i1 with
          | error e => simp only [h2] at h; exact Except.noConfusion h
          | ok q =>
            obtain ⟨nd, i2⟩ := q
            simp only [h2] at h
            simp only [Except.ok.injEq, Prod.mk.injEq] at h
            obtain ⟨rfl, rfl⟩ := h
            simpa only [allowedB] using ihUnary _ _ _ _ h2
      · exact ihAtom _ _ _ _ h
    · intro ts i r j h
      simp only [atomF] at h
      split at h
      · cases h1 : eat ts i (curTok ts i).ttype with
        | error e => simp only [h1] at h; exact Except.noConfusion h
        | ok p =>
          obtain ⟨u, i1⟩ := p
          simp only [h1] at h
          simp only [Except.ok.injEq, Prod.mk.injEq] at h
          obtain ⟨rfl, rfl⟩ := h
          rfl
      · split at h
        · cases h1 : eat ts i .LIT_STRING with
          | error e => simp only [h1] at h; exact Except.noConfusion h
          | ok p =>
            obtain ⟨u, i1⟩ := p
            simp only [h1] at h
            simp only [Except.ok.injEq, Prod.mk.injEq] at h
            obtain ⟨rfl, rfl⟩ := h
            rfl
        · split at h
          · cases h1 : eat ts i .IDENTIFIER with
            | error e => simp only [h1] at h; exact Except.noConfusion h
            | ok p =>
              obtain ⟨u, i1⟩ := p
              simp only [h1] at h
              simp only [Except.ok.injEq, Prod.mk.injEq] at h
              obtain ⟨rfl, rfl⟩ := h
              rfl
          · exact Except.noConfusion h

/-- Corollary at the entry point: any AST `parse` returns satisfies the
node-closure predicate. -/
theorem parseF_allowed (fuel : Nat) (ts : List Token) (r : Node) (j : Nat)
    (h : parseF fuel ts = .ok (r, j)) : allowedB r = true := by
  simp only [parseF] at h
  split at h
  · exact Except.noConfusion h
  · cases h1 : eat ts 0 .PROGRAM_START with
    | error e => simp only [h1] at h; exact Except.noConfusion h
    | ok p =>
      obtain ⟨u, i1⟩ := p
      simp only [h1] at h
      cases h2 : statementsF fuel ts .PROGRAM_END i1 with
      | error e => simp only [h2] at h; exact Except.noConfusion h
      | ok q =>
        obtain ⟨ss, i2⟩ := q
        simp only [h2] at h
        cases h3 : eat ts i2 .PROGRAM_END with
        | error e => simp only [h3] at h; exact Except.noConfusion h
        | ok w =>
          obtain ⟨u2, i3⟩ := w
          simp only [h3] at h
          split at h
          · exact Except.noConfusion h
          · simp only [Except.ok.injEq, Prod.mk.injEq] at h
            obtain ⟨rfl, rfl⟩ := h
            simpa only [allowedB] using (parserAllowed_all fuel).1 _ _ _ _ _ h2

/-- C8: the parser cannot emit a While, ForEach, FunctionCall,
ListIndexRead, FileReadExpr, TypeCast or FileAppend node — every AST
`parse` returns satisfies the closure predicate `allowedB`, which is false
on any tree containing one of those node kinds, so the interpreter's
evaluation rules for them are unreachable through the tokenize-then-parse
pipeline; moreover the statement dispatcher and the `atom` rule have no
production for the while ⏳, for 🚶, call 📞, get-at 🎯, read-file 📖 or
append-file ✍️ keyword tokens: with any of them as the current token both
raise a `SyntaxError`. -/
theorem c8_parser_never_emits_unreachable_nodes :
    (∀ fuel ts r j, parseF fuel ts = .ok (r, j) → allowedB r = true) ∧
    (∀ fuel ts i, (curTok ts i).ttype ∈ unreachableToks →
      (∃ m, statementF (fuel + 1) ts i = .error (.syn m)) ∧
      (∃ m, atomF (fuel + 1) ts i = .error (.syn m))) := by
  constructor
  · exact fun fuel ts r j h => parseF_allowed fuel ts r j h
  · intro fuel ts i hmem
    simp only [unreachableToks, List.mem_cons, List.not_mem_nil, or_false] at hmem
    constructor
    · refine ⟨"Comando inesperado: token '" ++ tokStr (curTok ts i) ++ "'", ?_⟩
      rcases hmem with h | h | h | h | h | h <;> simp [statementF, h]
    · refine ⟨"Esperava um Inteiro, Real, String ou Identificador, mas encontrou: "
        ++ tokStr (curTok ts i), ?_⟩
      rcases hmem with h | h | h | h | h | h <;> simp [atomF, h]

/-- C8 witness. -/
theorem c8_parser_never_emits_unreachable_nodes_witness :
    allowedB (.program []) = true ∧
    (∃ m, statementF 1 [⟨.KEYWORD_WHILE, .vstr "⏳"⟩] 0 = .error (.syn m)) ∧
    (∃ m, atomF 1 [⟨.KEYWORD_WHILE, .vstr "⏳"⟩] 0 = .error (.syn m)) :=
  ⟨c8_parser_never_emits_unreachable_nodes.1 4
      [⟨.PROGRAM_START, .vstr "🌱"⟩, ⟨.PROGRAM_END, .vstr "🌳"⟩, ⟨.EOF, .vnone⟩]
      (.program []) 2 rfl,
   (c8_parser_never_emits_unreachable_nodes.2 0 [⟨.KEYWORD_WHILE, .vstr "⏳"⟩] 0
      (by decide)).1,
   (c8_parser_never_emits_unreachable_nodes.2 0 [⟨.KEYWORD_WHILE, .vstr "⏳"⟩] 0
      (by decide)).2⟩

/-! ## C1: what `parse` consumes, and the leftover-token check -/

theorem eat_ok {ts : List Token} {i : Nat} {expected : TokType} {u : Unit} {j : Nat}
    (h : eat ts i expected = .ok (u, j)) :
    (curTok ts i).ttype = expected ∧ j = i + 1 := by
  simp only [eat] at h
  split at h
  · rename_i hc
    simp only [Except.ok.injEq, Prod.mk.injEq] at h
    exact ⟨hc, h.2.symm⟩
  · exact Except.noConfusion h

theorem curTok_eq_getD {ts : List Token} {i : Nat} (h : i < ts.length) :
    curTok ts i = ts.getD i dTok := by
  rw [curTok, dif_pos h, List.getD_eq_getElem ts dTok h]
  rfl

theorem getLastD_eq_getD_last {α : Type} (d : α) (ts : List α) :
    ts.getLastD d = ts.getD (ts.length - 1) d := by
  rw [List.getLastD_eq_getLast?, List.getLast?_eq_getElem?, List.getD_eq_getElem?_getD]

theorem lexShaped_curTok_ge {ts : List Token} {i : Nat} (hs : lexShaped ts)
    (h : ts.length ≤ i) : (curTok ts i).ttype = .EOF := by
  obtain ⟨hne, _, hlast⟩ := hs
  rw [curTok, dif_neg (by omega)]
  rw [show (⟨.EOF, .vnone⟩ : Token) = dTok from rfl]
  rw [getLastD_eq_getD_last dTok ts]
  exact hlast

/-- C1 (corrected): for a lexer-shaped token sequence (one end-of-input
token, in final position) every accepting run of `parse` stops exactly at
the final end-of-input position, with the program terminator as the token
just before it — everything up to and including the terminator is consumed
and only end-of-input remains; and whenever the statement phase and the
terminator consumption succeed but the then-current token is not
end-of-input, `parse` raises the leftover-code `SyntaxError`.  (For
arbitrary token sequences the original universal claim is false: the
leftover check inspects only the single current token — see the
counterexample.) -/
theorem c1_parse_consumption :
    (∀ fuel ts r j, lexShaped ts → parseF fuel ts = .ok (r, j) →
      j = ts.length - 1 ∧ (ts.getD (j - 1) dTok).ttype = .PROGRAM_END ∧
      (ts.getD j dTok).ttype = .EOF) ∧
    (∀ fuel ts ss i2, eat ts 0 .PROGRAM_START = .ok ((), 1) →
      statementsF fuel ts .PROGRAM_END 1 = .ok (ss, i2) →
      eat ts i2 .PROGRAM_END = .ok ((), i2 + 1) →
      (curTok ts (i2 + 1)).ttype ≠ .EOF →
      parseF fuel ts = .error (.syn "Código encontrado após o fim do programa '🌳'.")) := by
  constructor
  · intro fuel ts r j hs h
    obtain ⟨hne, hmid, hlast⟩ := hs
    simp only [parseF] at h
    split at h
    · exact Except.noConfusion h
    · cases h1 : eat ts 0 .PROGRAM_START with
      | error e => simp only [h1] at h; exact Except.noConfusion h
      | ok p =>
        obtain ⟨u, i1⟩ := p
        simp only [h1] at h
        cases h2 : statementsF fuel ts .PROGRAM_END i1 with
        | error e => simp only [h2] at h; exact Except.noConfusion h
        | ok q =>
          obtain ⟨ss, i2⟩ := q
          simp only [h2] at h
          cases h3 : eat ts i2 .PROGRAM_END with
          | error e => simp only [h3] at h; exact Except.noConfusion h
          | ok w =>
            obtain ⟨u2, i3⟩ := w
            simp only [h3] at h
            split at h
            · exact Except.noConfusion h
            · rename_i hnn
              simp only [Except.ok.injEq, Prod.mk.injEq] at h
              obtain ⟨rfl, rfl⟩ := h
              rw [not_not] at hnn
              obtain ⟨hend, rfl⟩ := eat_ok h3
              have hlen : 0 < ts.length := List.length_pos.mpr hne
              have hi2lt : i2 < ts.length := by
                by_contra hge
                have heof := lexShaped_curTok_ge (i := i2) ⟨hne, hmid, hlast⟩ (by omega)
                rw [hend] at heof
                exact TokType.noConfusion heof
              have hi2ne : i2 ≠ ts.length - 1 := by
                intro he
                rw [curTok_eq_getD hi2lt, he, hlast] at hend
                exact TokType.noConfusion hend
              have hi3lt : i2 + 1 < ts.length := by omega
              have hi3eq : i2 + 1 = ts.length - 1 := by
                by_contra hne2
                have hlt : i2 + 1 < ts.length - 1 := by omega
                exact hmid (i2 + 1) hlt (by rw [← curTok_eq_getD hi3lt]; exact hnn)
              refine ⟨hi3eq, ?_, ?_⟩
              · rw [show i2 + 1 - 1 = i2 from by omega, ← curTok_eq_getD hi2lt]
                exact hend
              · rw [← curTok_eq_getD hi3lt]
                exact hnn
  · intro fuel ts ss i2 h0 h2 h3 hneof
    have hne : ts ≠ [] := by
      intro he
      rw [he] at h0
      simp [eat, curTok, dTok] at h0
    simp only [parseF]
    rw [if_neg (by simp [hne])]
    simp only [h0, h2, h3]
    rw [if_pos hneof]

/-- C1 counterexample: `parse` accepts the token sequence 🌱 🌳 EOF 🌳 1 EOF
although non-end-of-input tokens follow the program terminator (index 3
holds a second 🌳, not end-of-input): no `SyntaxError` is raised, and the
accepting run stops at index 2 with four tokens unconsumed, refuting the
original claim when it is read over arbitrary token sequences. -/
theorem c1_counterexample :
    parseF 10 junkToks = .ok (.program [], 2) ∧
    (junkToks.getD 1 dTok).ttype = .PROGRAM_END ∧
    (junkToks.getD 3 dTok).ttype ≠ .EOF ∧
    2 ≠ junkToks.length - 1 :=
  ⟨rfl, rfl, by decide, by decide⟩

/-- C1 witness. -/
theorem c1_parse_consumption_witness :
    (2 = ([⟨.PROGRAM_START, .vstr "🌱"⟩, ⟨.PROGRAM_END, .vstr "🌳"⟩,
        ⟨.EOF, .vnone⟩] : List Token).length - 1 ∧
      (([⟨.PROGRAM_START, .vstr "🌱"⟩, ⟨.PROGRAM_END, .vstr "🌳"⟩,
        ⟨.EOF, .vnone⟩] : List Token).getD (2 - 1) dTok).ttype = .PROGRAM_END ∧
      (([⟨.PROGRAM_START, .vstr "🌱"⟩, ⟨.PROGRAM_END, .vstr "🌳"⟩,
        ⟨.EOF, .vnone⟩] : List Token).getD 2 dTok).ttype = .EOF) ∧
    parseF 4 [⟨.PROGRAM_START, .vstr "🌱"⟩, ⟨.PROGRAM_END, .vstr "🌳"⟩,
        ⟨.LIT_INT, .vint 7⟩, ⟨.EOF, .vnone⟩] =
      .error (.syn "Código encontrado após o fim do programa '🌳'.") :=
  ⟨c1_parse_consumption.1 4 [⟨.PROGRAM_START, .vstr "🌱"⟩, ⟨.PROGRAM_END, .vstr "🌳"⟩,
      ⟨.EOF, .vnone⟩] (.program []) 2 ⟨by simp, by decide, rfl⟩ rfl,
   c1_parse_consumption.2 4 [⟨.PROGRAM_START, .vstr "🌱"⟩, ⟨.PROGRAM_END, .vstr "🌳"⟩,
      ⟨.LIT_INT, .vint 7⟩, ⟨.EOF, .vnone⟩] [] 1 rfl rfl rfl (by decide)⟩

/-- C10: reading a name bound to the absent/unit value raises the very same
"variable not defined" `RuntimeError` as reading an unbound name (the read
tests the looked-up value, not membership); consequently, after assigning a
variable the result of calling a function that returns no value, reading
that variable raises. -/
theorem c10_none_reads_as_undefined :
    (∀ (fuel : Nat) (s : St) (tok : Token), alGet s.env (tokName tok) = none →
      visit (fuel + 1) (.varAccess tok) s =
        .err (.rte ("Variável '" ++ tokName tok ++ "' não foi definida.")) s) ∧
    (∀ (fuel : Nat) (s : St) (tok : Token), alGet s.env (tokName tok) = some .vnone →
      visit (fuel + 1) (.varAccess tok) s =
        .err (.rte ("Variável '" ++ tokName tok ++ "' não foi definida.")) s) ∧
    visit 9 (.block [.varAssign ⟨.IDENTIFIER, .vstr "x"⟩
        (.funcCall (.varAccess ⟨.IDENTIFIER, .vstr "f"⟩) []),
        .print (.varAccess ⟨.IDENTIFIER, .vstr "x"⟩)])
      ⟨[("f", .vfunc ⟨.IDENTIFIER, .vstr "f"⟩ [] (.block [])), ("x", .vint 1)], [], [], []⟩ =
      .err (.rte "Variável 'x' não foi definida.")
        ⟨[("f", .vfunc ⟨.IDENTIFIER, .vstr "f"⟩ [] (.block [])), ("x", .vnone)], [], [], []⟩ := by
  refine ⟨?_, ?_, rfl⟩
  · intro fuel s tok h
    simp only [visit, h]
  · intro fuel s tok h
    simp only [visit, h]

/-! ## C5: ForEach order and loop-variable restoration -/

/-- C5: a ForEach over a list value runs the body once per element in list
order, binding the loop variable in the single shared environment (made
observable here by a body that prints the loop variable); after the final
iteration the loop-variable name is restored to the value it held before
the loop, or removed from the environment entirely if it held none (no
binding, or a binding to the absent/unit value — `symbol_table.get` cannot
tell these apart). -/
theorem c5_foreach_order_and_restore :
    (∀ (items : List Value) (v : String) (s : St) (fuel : Nat),
      2 * items.length + 1 ≤ fuel → (∀ x ∈ items, x ≠ Value.vnone) →
      ∃ env', forLoop fuel items v (.print (.varAccess ⟨.IDENTIFIER, .vstr v⟩)) s =
        .ok () ⟨env', s.out ++ items.map pyStr, s.fs, s.inp⟩) ∧
    (∀ (fuel : Nat) (s s1 s2 : St) (var_tok : Token) (list_node body : Node)
      (items : List Value) (u : Unit) (oldv : Value),
      visit fuel list_node s = .ok (.vlist items) s1 →
      forLoop fuel items (tokName var_tok) body s1 = .ok u s2 →
      (alGet s1.env (tokName var_tok) = some oldv → oldv ≠ .vnone →
        visit (fuel + 1) (.forNode var_tok list_node body) s =
          .ok .vnone { s2 with env := alSet s2.env (tokName var_tok) oldv }) ∧
      ((alGet s1.env (tokName var_tok) = none ∨ alGet s1.env (tokName var_tok) = some .vnone) →
        visit (fuel + 1) (.forNode var_tok list_node body) s =
          .ok .vnone { s2 with env :=
            (if alContains s2.env (tokName var_tok) then alErase s2.env (tokName var_tok)
              else s2.env) })) ∧
    visit 9 (.forNode ⟨.IDENTIFIER, .vstr "v"⟩ (.varAccess ⟨.IDENTIFIER, .vstr "xs"⟩)
        (.print (.varAccess ⟨.IDENTIFIER, .vstr "v"⟩)))
      ⟨[("xs", .vlist [.vint 1, .vint 2, .vint 3]), ("v", .vint 9)], [], [], []⟩ =
      .ok .vnone ⟨[("xs", .vlist [.vint 1, .vint 2, .vint 3]), ("v", .vint 9)],
        ["1", "2", "3"], [], []⟩ ∧
    visit 9 (.forNode ⟨.IDENTIFIER, .vstr "v"⟩ (.varAccess ⟨.IDENTIFIER, .vstr "xs"⟩)
        (.print (.varAccess ⟨.IDENTIFIER, .vstr "v"⟩)))
      ⟨[("xs", .vlist [.vint 1, .vint 2, .vint 3])], [], [], []⟩ =
      .ok .vnone ⟨[("xs", .vlist [.vint 1, .vint 2, .vint 3])], ["1", "2", "3"], [], []⟩ := by
  refine ⟨?_, ?_, rfl, rfl⟩
  · intro items
    induction items with
    | nil =>
      intro v s fuel hf _
      obtain ⟨f, rfl⟩ : ∃ f, fuel = f + 1 := ⟨fuel - 1, by omega⟩
      exact ⟨s.env, by simp [forLoop]⟩
    | cons x rest ih =>
      intro v s fuel hf hnv
      obtain ⟨f, rfl⟩ : ∃ f, fuel = f + 1 := ⟨fuel - 1, by omega⟩
      obtain ⟨g, rfl⟩ : ∃ g, f = g + 1 := ⟨f - 1, by simp at hf; omega⟩
      obtain ⟨j, rfl⟩ : ∃ j, g = j + 1 := ⟨g - 1, by simp at hf; omega⟩
      have hx : x ≠ Value.vnone := hnv x (by simp)
      have hstep : visit (j + 2) (.print (.varAccess ⟨.IDENTIFIER, .vstr v⟩))
          { s with env := alSet s.env v x } =
          .ok .vnone { s with env := alSet s.env v x, out := s.out ++ [pyStr x] } := by
        simp only [visit, tokName, alGet_alSet_self]
      have hrest := ih v { s with env := alSet s.env v x, out := s.out ++ [pyStr x] }
        (j + 2) (by simp at hf ⊢; omega) (fun y hy => hnv y (by simp [hy]))
      obtain ⟨env', hrest⟩ := hrest
      refine ⟨env', ?_⟩
      simp only [forLoop, hstep, hrest]
      simp
  · intro fuel s s1 s2 var_tok list_node body items u oldv hlist hloop
    constructor
    · intro hget hnv
      simp only [visit, hlist, hloop, hget, Option.getD_some]
    · rintro (hget | hget) <;>
        simp only [visit, hlist, hloop, hget, Option.getD_none, Option.getD_some] <;>
        by_cases hc : alContains s2.env (tokName var_tok) = true <;>
        simp [hc]

/-- C5 witness. -/
theorem c5_foreach_order_and_restore_witness :
    (∃ env', forLoop 3 [Value.vint 4] "v"
        (.print (.varAccess ⟨.IDENTIFIER, .vstr "v"⟩)) ⟨[], [], [], []⟩ =
      .ok () ⟨env', [] ++ [Value.vint 4].map pyStr, [], []⟩) ∧
    visit 6 (.forNode ⟨.IDENTIFIER, .vstr "w"⟩ (.varAccess ⟨.IDENTIFIER, .vstr "ys"⟩)
        (.block []))
      ⟨[("ys", .vlist [.vint 5]), ("w", .vstr "old")], [], [], []⟩ =
      .ok .vnone { (⟨[("ys", .vlist [.vint 5]), ("w", .vint 5)], [], [], []⟩ : St) with
        env := alSet [("ys", Value.vlist [.vint 5]), ("w", Value.vint 5)] "w" (.vstr "old") } :=
  ⟨c5_foreach_order_and_restore.1 [Value.vint 4] "v" ⟨[], [], [], []⟩ 3 (by simp)
    (by intro x hx; simp at hx; simp [hx]),
   (c5_foreach_order_and_restore.2.1 5 ⟨[("ys", .vlist [.vint 5]), ("w", .vstr "old")], [], [], []⟩
      ⟨[("ys", .vlist [.vint 5]), ("w", .vstr "old")], [], [], []⟩
      ⟨[("ys", .vlist [.vint 5]), ("w", .vint 5)], [], [], []⟩
      ⟨.IDENTIFIER, .vstr "w"⟩ (.varAccess ⟨.IDENTIFIER, .vstr "ys"⟩) (.block [])
      [.vint 5] () (.vstr "old") rfl rfl).1 rfl (by simp)⟩

/-! ## C9: the import merge is not atomic -/

set_option maxRecDepth 4000 in
/-- C9: `visit_ImportNode` copies module bindings into the caller's table
one name at a time, checking each name against the (growing) caller table
before inserting it; when the collision `RuntimeError` is raised, every
binding merged before the colliding name is still in the caller's table.
Concretely, importing a module binding `a := 2` (fresh) and then `b := 3`
(colliding) into a caller that has `b` fails — yet leaves `a` behind, both
at the merge-loop level and through the full `visit` of the import with the
module file on disk. -/
theorem c9_import_merge_not_atomic :
    (∀ (filename : String) (caller mod : Env) (m : String) (post : Env),
      importMerge filename caller mod = .error (m, post) →
      ∃ pre key value rest, mod = pre ++ (key, value) :: rest ∧
        post = pre.foldl (fun e p => alSet e p.1 p.2) caller ∧
        alContains post key = true ∧
        (∀ p ∈ pre, alContains post p.1 = true) ∧
        m = "Importação ⚙️ de '" ++ filename ++ "' falhou: '" ++ key
          ++ "' já existe no escopo atual.") ∧
    importMerge "m.moji" [("b", .vint 1)] [("a", .vint 2), ("b", .vint 3)] =
      .error ("Importação ⚙️ de 'm.moji' falhou: 'b' já existe no escopo atual.",
        [("b", .vint 1), ("a", .vint 2)]) ∧
    ([("b", Value.vint 1), ("a", Value.vint 2)] : Env) ≠ [("b", Value.vint 1)] ∧
    visit 40 (.importNode ⟨.IDENTIFIER, .vstr "m"⟩)
      ⟨[("b", .vint 1)], [], [("m.moji", "🌱 🔢 a 👉 2 🔚 🔢 b 👉 3 🔚 🌳")], []⟩ =
      .err (.rte ("Erro ao importar ⚙️ o módulo 'm.moji':\n"
        ++ "Runtime Error: Importação ⚙️ de 'm.moji' falhou: 'b' já existe no escopo atual."))
        ⟨[("b", .vint 1), ("a", .vint 2)], [],
          [("m.moji", "🌱 🔢 a 👉 2 🔚 🔢 b 👉 3 🔚 🌳")], []⟩ := by
  refine ⟨?_, rfl, by simp, ?_⟩
  · intro filename caller mod
    induction mod generalizing caller with
    | nil => intro m post h; simp [importMerge] at h
    | cons p rest ih =>
      intro m post h
      obtain ⟨key, value⟩ := p
      by_cases hc : alContains caller key = true
      · simp only [importMerge, if_pos hc, Except.error.injEq, Prod.mk.injEq] at h
        obtain ⟨hm, hpost⟩ := h
        refine ⟨[], key, value, rest, by simp, by simp [hpost.symm], ?_, by simp, hm.symm⟩
        rw [← hpost]
        exact hc
      · simp only [importMerge, if_neg hc] at h
        obtain ⟨pre', key', value', rest', hmod, hpost, hck, hpre, hm⟩ := ih (alSet caller key value) m post h
        refine ⟨(key, value) :: pre', key', value', rest', by simp [hmod], by simpa using hpost, hck, ?_, hm⟩
        intro q hq
        rcases List.mem_cons.mp hq with hq | hq
        · subst hq
          rw [hpost]
          exact alContains_foldl_alSet pre' (alSet caller key value) key
            ((alContains_alSet caller key key value).mpr (Or.inl rfl))
        · exact hpre q hq
  · have h1 : make_tokens 39 "🌱 🔢 a 👉 2 🔚 🔢 b 👉 3 🔚 🌳" =
        .ok [⟨.PROGRAM_START, .vstr "🌱"⟩, ⟨.KEYWORD_INT, .vstr "🔢"⟩,
          ⟨.IDENTIFIER, .vstr "a"⟩, ⟨.ASSIGN, .vstr "👉"⟩, ⟨.LIT_INT, .vint 2⟩,
          ⟨.END_STATEMENT, .vstr "🔚"⟩, ⟨.KEYWORD_INT, .vstr "🔢"⟩,
          ⟨.IDENTIFIER, .vstr "b"⟩, ⟨.ASSIGN, .vstr "👉"⟩, ⟨.LIT_INT, .vint 3⟩,
          ⟨.END_STATEMENT, .vstr "🔚"⟩, ⟨.PROGRAM_END, .vstr "🌳"⟩, ⟨.EOF, .vnone⟩] := by
      simp [make_tokens, make_tokens_loop, curChar, skip_comment, make_number, numLoop,
        make_identifier, identLoop, make_string, strLoop, emojiLookup, EMOJI_KEYWORDS,
        isSpaceChar, isIdentChar, parseIntDigits, parseRealChars, Fin.isValue, List.get]
    have h2 : parseF 39 [(⟨.PROGRAM_START, .vstr "🌱"⟩ : Token), ⟨.KEYWORD_INT, .vstr "🔢"⟩,
          ⟨.IDENTIFIER, .vstr "a"⟩, ⟨.ASSIGN, .vstr "👉"⟩, ⟨.LIT_INT, .vint 2⟩,
          ⟨.END_STATEMENT, .vstr "🔚"⟩, ⟨.KEYWORD_INT, .vstr "🔢"⟩,
          ⟨.IDENTIFIER, .vstr "b"⟩, ⟨.ASSIGN, .vstr "👉"⟩, ⟨.LIT_INT, .vint 3⟩,
          ⟨.END_STATEMENT, .vstr "🔚"⟩, ⟨.PROGRAM_END, .vstr "🌳"⟩, ⟨.EOF, .vnone⟩] =
        .ok (.program [.varDeclare ⟨.KEYWORD_INT, .vstr "🔢"⟩ ⟨.IDENTIFIER, .vstr "a"⟩
            (some (.number ⟨.LIT_INT, .vint 2⟩)),
          .varDeclare ⟨.KEYWORD_INT, .vstr "🔢"⟩ ⟨.IDENTIFIER, .vstr "b"⟩
            (some (.number ⟨.LIT_INT, .vint 3⟩))], 12) := rfl
    have h3 : runTop 39 (.program [.varDeclare ⟨.KEYWORD_INT, .vstr "🔢"⟩
            ⟨.IDENTIFIER, .vstr "a"⟩ (some (.number ⟨.LIT_INT, .vint 2⟩)),
          .varDeclare ⟨.KEYWORD_INT, .vstr "🔢"⟩ ⟨.IDENTIFIER, .vstr "b"⟩
            (some (.number ⟨.LIT_INT, .vint 3⟩))])
        ⟨[], [], [("m.moji", "🌱 🔢 a 👉 2 🔚 🔢 b 👉 3 🔚 🌳")], []⟩ =
        .ok .vnone ⟨[("a", .vint 2), ("b", .vint 3)], [],
          [("m.moji", "🌱 🔢 a 👉 2 🔚 🔢 b 👉 3 🔚 🌳")], []⟩ := rfl
    show visit (39 + 1) _ _ = _
    simp only [visit, tokName]
    rw [show ("m" ++ ".moji" : String) = "m.moji" from rfl]
    rw [show alGet ([("m.moji", "🌱 🔢 a 👉 2 🔚 🔢 b 👉 3 🔚 🌳")] :
      List (String × String)) "m.moji" = some "🌱 🔢 a 👉 2 🔚 🔢 b 👉 3 🔚 🌳" from rfl]
    simp only [h1, h2, h3]
    rfl

/-- C9 witness. -/
theorem c9_import_merge_not_atomic_witness :
    ∃ pre key value rest,
      ([("a", Value.vint 2), ("b", Value.vint 3)] : Env) = pre ++ (key, value) :: rest ∧
      ([("b", Value.vint 1), ("a", Value.vint 2)] : Env) =
        pre.foldl (fun e p => alSet e p.1 p.2) [("b", Value.vint 1)] ∧
      alContains [("b", Value.vint 1), ("a", Value.vint 2)] key = true ∧
      (∀ p ∈ pre, alContains [("b", Value.vint 1), ("a", Value.vint 2)] p.1 = true) ∧
      "Importação ⚙️ de 'm.moji' falhou: 'b' já existe no escopo atual." =
        "Importação ⚙️ de '" ++ "m.moji" ++ "' falhou: '" ++ key
          ++ "' já existe no escopo atual." :=
  c9_import_merge_not_atomic.1 "m.moji" [("b", .vint 1)]
    [("a", .vint 2), ("b", .vint 3)] _ _ rfl

/-- C10 witness. -/
theorem c10_none_reads_as_undefined_witness :
    visit 1 (.varAccess ⟨.IDENTIFIER, .vstr "y"⟩) ⟨[("y", .vnone)], [], [], []⟩ =
      .err (.rte "Variável 'y' não foi definida.") ⟨[("y", .vnone)], [], [], []⟩ ∧
    visit 1 (.varAccess ⟨.IDENTIFIER, .vstr "z"⟩) ⟨[], [], [], []⟩ =
      .err (.rte "Variável 'z' não foi definida.") ⟨[], [], [], []⟩ :=
  ⟨c10_none_reads_as_undefined.2.1 0 _ _ rfl, c10_none_reads_as_undefined.1 0 _ _ rfl⟩

end Moji
